import Mathlib

/-!
Verification development for the HeartOfMagic spell-scanner core
(`src/plugin/src/SpellScanner.cpp`).

Modelling conventions (shallow embedding):
* C++ `std::string` values are modelled as `List Nat`, one `Nat` per byte
  (the sanitizer and the identifier parser operate byte-wise in the source).
  The helper `bytes` converts an ASCII Lean string literal to its byte list.
* C++ `float` values (`magnitude`, `chargeTime`, magicka cost, the
  effectiveness ratio) are modelled as exact rationals `ℚ`; `static_cast<int>`
  on a non-negative value is truncation toward zero, modelled by `cppTruncInt`.
* Machine integers (`RE::FormID` = `uint32_t`, `uint32_t` skill levels,
  `uint32_t` area) are modelled as `Nat`; `int32_t` durations as `Int`.
  Where a theorem needs the 32-bit range of a FormID it carries an explicit
  `< 2 ^ 32` hypothesis.
* Null pointers are `Option.none`; JSON objects produced by the code are
  modelled as Lean structures whose conditionally-emitted keys are `Option`
  fields; a C++ function that returns the empty string `""` on failure is
  modelled as returning `Option.none`.
* The host environment (`RE::TESDataHandler`, `RE::TESForm::LookupByID`,
  `SpellEffectivenessHook`) is modelled by the structure `Env` of read-only
  data and lookup functions.
* Logging, the UTC timestamp and the fixed LLM instruction text
  (`GetSystemInstructions`) are observable side artifacts that no modelled
  property depends on; they are omitted from the output structures (the
  per-scan counters, which the source exposes through its log lines, are
  kept because the dedup claim talks about the skipped-duplicate count).
-/

namespace HeartOfMagic

/-- Convert an ASCII Lean string literal to the byte list that models the
corresponding C++ `std::string`. -/
def bytes (s : String) : List Nat := s.data.map Char.toNat

-- =============================================================================
-- Sanitizer: `SanitizeToUTF8` (SpellScanner.cpp lines 15-45)
-- =============================================================================

/-- Per-byte substitution of `SanitizeToUTF8`: ASCII passes through, the
Windows-1252 control range [0x80,0x9F] goes through the fixed table,
everything at or above 0xA0 passes through. -/
def sanitizeByte (c : Nat) : List Nat :=
  if c < 128 then [c]
  else if c ≤ 159 then
    if c = 145 ∨ c = 146 then [39]            -- 0x91/0x92 -> '\''
    else if c = 147 ∨ c = 148 then [34]       -- 0x93/0x94 -> '"'
    else if c = 150 ∨ c = 151 then [45]       -- 0x96/0x97 -> '-'
    else if c = 133 then [46, 46, 46]         -- 0x85 -> "..."
    else if c = 153 then [40, 84, 77, 41]     -- 0x99 -> "(TM)"
    else [63]                                 -- default -> '?'
  else [c]

/-- Model of `SanitizeToUTF8`: the source loops over the input bytes and
appends each byte's substitution to the result. -/
def SanitizeToUTF8 : List Nat → List Nat
  | [] => []
  | c :: rest => sanitizeByte c ++ SanitizeToUTF8 rest

-- =============================================================================
-- Byte-level character classification and case folding
-- (models `::tolower`, `std::isdigit`, `std::isxdigit` in the "C" locale)
-- =============================================================================

/-- ASCII lower-casing of one byte, the behaviour of `::tolower` in the "C"
locale taken by `std::transform` in `isNonPlayerSpell`. -/
def lowerByte (c : Nat) : Nat := if 65 ≤ c ∧ c ≤ 90 then c + 32 else c

/-- Lower-case a whole byte string (`std::transform(..., ::tolower)`). -/
def toLowerBytes (s : List Nat) : List Nat := s.map lowerByte

/-- Model of `std::isdigit` on a byte. -/
def isDigitByte (c : Nat) : Bool := 48 ≤ c && c ≤ 57

/-- Hex value of a byte if it is a hexadecimal digit (`std::isxdigit`),
`none` otherwise. -/
def hexDigitVal (c : Nat) : Option Nat :=
  if 48 ≤ c ∧ c ≤ 57 then some (c - 48)
  else if 65 ≤ c ∧ c ≤ 70 then some (c - 55)
  else if 97 ≤ c ∧ c ≤ 102 then some (c - 87)
  else none

/-- Model of `std::isxdigit` on a byte. -/
def isHexDigitByte (c : Nat) : Bool := (hexDigitVal c).isSome

-- =============================================================================
-- Byte-string search primitives (`std::string::substr`-prefix comparison and
-- `std::string::find` substring search)
-- =============================================================================

/-- Does the byte string start with the given needle?  Models the source's
`s.substr(0, n) == needle` and `s.find(needle) == 0` idioms (for a needle of
length `n`; `substr` truncates short strings, which compare unequal). -/
def startsWithB : List Nat → List Nat → Bool
  | _, [] => true
  | [], _ :: _ => false
  | a :: s, b :: p => a == b && startsWithB s p

/-- Does the byte string contain the needle as a contiguous substring?
Models `s.find(needle) != std::string::npos`. -/
def containsB : List Nat → List Nat → Bool
  | [], p => startsWithB [] p
  | l@(_ :: rest), p => startsWithB l p || containsB rest p

-- =============================================================================
-- Classifier: the `isNonPlayerSpell` lambda (SpellScanner.cpp lines 266-318)
-- =============================================================================

/-- The "mg" + two digits quest-spell pattern check:
`lower.length() >= 4 && lower.substr(0,2) == "mg" && isdigit(lower[2]) &&
isdigit(lower[3])`. -/
def mgQuestCheck (l : List Nat) : Bool :=
  match l with
  | a :: b :: c :: d :: _ => a == 109 && b == 103 && isDigitByte c && isDigitByte d
  | _ => false

/-- Model of the `isNonPlayerSpell` lambda: lower-cases the editor id and
runs the ordered early-return checks of the source. -/
def isNonPlayerSpell (editorId : List Nat) : Bool :=
  let lower := toLowerBytes editorId
  if containsB lower (bytes "trap") then true
  else if startsWithB lower (bytes "cr") then true
  else if containsB lower (bytes "altar") then true
  else if containsB lower (bytes "shrine") then true
  else if containsB lower (bytes "blessing") && containsB lower (bytes "spell") then true
  else if startsWithB lower (bytes "dun") then true
  else if startsWithB lower (bytes "perk") then true
  else if containsB lower (bytes "hazard") then true
  else if startsWithB lower (bytes "power") then true
  else if startsWithB lower (bytes "test") then true
  else if mgQuestCheck lower then true
  else if startsWithB lower (bytes "mgr") then true
  else if containsB lower (bytes "voice") then true
  else if containsB lower (bytes "teleport") && containsB lower (bytes "pet") then true
  else if containsB lower (bytes "lefthand") then true
  else if containsB lower (bytes "righthand") then true
  else if containsB lower (bytes "copy") then true
  else false

/-- The classifier's condition list written as one disjunction, in the order
the specification enumerates the checks. -/
def nonPlayerDisjunction (editorId : List Nat) : Bool :=
  let l := toLowerBytes editorId
  containsB l (bytes "trap")
  || startsWithB l (bytes "cr")
  || containsB l (bytes "altar")
  || containsB l (bytes "shrine")
  || (containsB l (bytes "blessing") && containsB l (bytes "spell"))
  || startsWithB l (bytes "dun")
  || startsWithB l (bytes "perk")
  || containsB l (bytes "hazard")
  || startsWithB l (bytes "power")
  || startsWithB l (bytes "test")
  || mgQuestCheck l
  || startsWithB l (bytes "mgr")
  || containsB l (bytes "voice")
  || (containsB l (bytes "teleport") && containsB l (bytes "pet"))
  || containsB l (bytes "lefthand")
  || containsB l (bytes "righthand")
  || containsB l (bytes "copy")

-- =============================================================================
-- Configuration documents: `FieldConfig`, `ScanConfig`, `ParseScanConfig`
-- (SpellScanner.h lines 8-25, SpellScanner.cpp lines 103-141)
-- =============================================================================

/-- The ten optional-field flags with their C++ default member initializers. -/
structure FieldConfig where
  editorId : Bool := true
  magickaCost : Bool := true
  minimumSkill : Bool := false
  castingType : Bool := false
  delivery : Bool := false
  chargeTime : Bool := false
  plugin : Bool := false
  effects : Bool := false
  effectNames : Bool := false
  keywords : Bool := false
deriving DecidableEq, Repr

/-- Scan configuration: field flags plus the user's tree-rules text. -/
structure ScanConfig where
  fields : FieldConfig := {}
  treeRulesPrompt : String := ""
deriving DecidableEq, Repr

/-- A parsed JSON value, the shape `nlohmann::json` exposes to this code. -/
inductive Json where
  | null
  | bool (b : Bool)
  | num (q : ℚ)
  | str (s : String)
  | arr (elems : List Json)
  | obj (entries : List (String × Json))

/-- First value bound to a key in an object entry list (`nlohmann` keeps keys
unique; for an ill-formed duplicate the first entry is the binding). -/
def findKey : List (String × Json) → String → Option Json
  | [], _ => none
  | (k, v) :: rest, key => if k = key then some v else findKey rest key

/-- Model of `j.contains(key) ? j[key] : absent`: key lookup on an object,
`none` on any non-object value (where `contains` is always false). -/
def Json.find : Json → String → Option Json
  | .obj entries, key => findKey entries key
  | _, _ => none

/-- The ten recognized keys of the `fields` object, in the order the source
tests them. -/
inductive FKey where
  | editorId | magickaCost | minimumSkill | castingType | delivery
  | chargeTime | plugin | effects | effectNames | keywords
deriving DecidableEq, Repr

/-- JSON key string of a field flag. -/
def FKey.name : FKey → String
  | .editorId => "editorId"
  | .magickaCost => "magickaCost"
  | .minimumSkill => "minimumSkill"
  | .castingType => "castingType"
  | .delivery => "delivery"
  | .chargeTime => "chargeTime"
  | .plugin => "plugin"
  | .effects => "effects"
  | .effectNames => "effectNames"
  | .keywords => "keywords"

/-- Read a field flag out of a `FieldConfig`. -/
def FKey.get : FKey → FieldConfig → Bool
  | .editorId, c => c.editorId
  | .magickaCost, c => c.magickaCost
  | .minimumSkill, c => c.minimumSkill
  | .castingType, c => c.castingType
  | .delivery, c => c.delivery
  | .chargeTime, c => c.chargeTime
  | .plugin, c => c.plugin
  | .effects, c => c.effects
  | .effectNames, c => c.effectNames
  | .keywords, c => c.keywords

/-- Set a field flag in a `FieldConfig`. -/
def FKey.set : FKey → FieldConfig → Bool → FieldConfig
  | .editorId, c, b => { c with editorId := b }
  | .magickaCost, c, b => { c with magickaCost := b }
  | .minimumSkill, c, b => { c with minimumSkill := b }
  | .castingType, c, b => { c with castingType := b }
  | .delivery, c, b => { c with delivery := b }
  | .chargeTime, c, b => { c with chargeTime := b }
  | .plugin, c, b => { c with plugin := b }
  | .effects, c, b => { c with effects := b }
  | .effectNames, c, b => { c with effectNames := b }
  | .keywords, c, b => { c with keywords := b }

/-- The source's fixed order of the ten `if (f.contains(...)) ...` lines. -/
def fieldKeys : List FKey :=
  [.editorId, .magickaCost, .minimumSkill, .castingType, .delivery,
   .chargeTime, .plugin, .effects, .effectNames, .keywords]

/-- One `if (f.contains(key)) config.x = f[key].get<bool>();` line.
An absent key leaves the config untouched; a present boolean value is
assigned; a present non-boolean value throws `nlohmann::type_error`
(modelled as `Except.error` carrying the config as updated so far). -/
def applyBoolField (f : Json) (k : FKey) (cfg : FieldConfig) :
    Except FieldConfig FieldConfig :=
  match f.find k.name with
  | none => .ok cfg
  | some (.bool b) => .ok (k.set cfg b)
  | some _ => .error cfg

/-- The block of ten field assignments, run left to right; the first
type error aborts the remaining assignments (C++ exception propagation). -/
def applyBoolFields (f : Json) : List FKey → FieldConfig →
    Except FieldConfig FieldConfig
  | [], cfg => .ok cfg
  | k :: rest, cfg =>
    match applyBoolField f k cfg with
    | .ok cfg₂ => applyBoolFields f rest cfg₂
    | .error cfg₂ => .error cfg₂

/-- Collapse the exception state: the source's `catch` block logs a warning
and returns the partially-updated config. -/
def exceptOut {α : Type} : Except α α → α
  | .ok c => c
  | .error c => c

/-- Model of `ParseScanConfig`.  The argument is the result of
`json::parse`: `none` stands for an empty input string or a parse failure
(both return the default config), `some j` for a successfully parsed
document.  Inside the `try` block the `fields` object is processed first,
then `treeRulesPrompt`; any `get<...>` type error jumps to the `catch`,
which returns the config as assigned so far. -/
def ParseScanConfig (doc : Option Json) : ScanConfig :=
  match doc with
  | none => {}
  | some j =>
    let afterFields : Except ScanConfig ScanConfig :=
      match j.find "fields" with
      | none => .ok {}
      | some f =>
        match applyBoolFields f fieldKeys {} with
        | .ok fc => .ok { fields := fc }
        | .error fc => .error { fields := fc }
    let afterPrompt : Except ScanConfig ScanConfig :=
      match afterFields with
      | .error c => .error c
      | .ok c =>
        match j.find "treeRulesPrompt" with
        | none => .ok c
        | some (.str s) => .ok { c with treeRulesPrompt := s }
        | some _ => .error c
    exceptOut afterPrompt

/-- A well-typed fields object: every recognized key that is present maps to
a boolean value (so no `get<bool>` call throws). -/
def fieldsWellTyped (f : Json) : Prop :=
  ∀ k : FKey, f.find k.name = none ∨ ∃ b, f.find k.name = some (.bool b)

-- =============================================================================
-- FormID rendering and parsing
-- (`std::format("0x{:08X}", formId)` at SpellScanner.cpp lines 412/607/613 and
-- the hand-written parser of `GetSpellInfoByFormId`, lines 722-747)
-- =============================================================================

/-- Uppercase hexadecimal digit character (as a byte) of a value below 16. -/
def hexDigitChar (n : Nat) : Nat := if n < 10 then 48 + n else 55 + n

/-- The eight zero-padded uppercase hex digits of a 32-bit value, most
significant first: the `{:08X}` format of `std::format`. -/
def hex8 (v : Nat) : List Nat :=
  [hexDigitChar (v / 16 ^ 7 % 16), hexDigitChar (v / 16 ^ 6 % 16),
   hexDigitChar (v / 16 ^ 5 % 16), hexDigitChar (v / 16 ^ 4 % 16),
   hexDigitChar (v / 16 ^ 3 % 16), hexDigitChar (v / 16 ^ 2 % 16),
   hexDigitChar (v / 16 % 16), hexDigitChar (v % 16)]

/-- Model of `std::format("0x{:08X}", v)`. -/
def renderFormId (v : Nat) : List Nat := bytes "0x" ++ hex8 v

/-- Remove one leading `"0x"` / `"0X"` if present (the parser's
`cleanId = cleanId.substr(2)` step; the length-2 guard is implied by the
prefix match). -/
def stripLeading0x (s : List Nat) : List Nat :=
  if startsWithB s (bytes "0x") || startsWithB s (bytes "0X") then s.drop 2 else s

/-- Value of an already-validated hex digit string (`std::stoul(s, nullptr,
16)` on a string of hex digits). -/
def hexAccum (l : List Nat) : Nat :=
  l.foldl (fun acc c => acc * 16 + (hexDigitVal c).getD 0) 0

/-- Validation plus conversion applied to the cleaned identifier: every byte
must be a hex digit (else the function logs an error and returns `""`,
modelled `none`), and `std::stoul` on the empty string throws
`std::invalid_argument`, which the `catch` turns into `""` as well. -/
def parseHexClean (clean : List Nat) : Option Nat :=
  if clean.all (fun c => (hexDigitVal c).isSome) then
    match clean with
    | [] => none
    | _ :: _ => some (hexAccum clean)
  else none

/-- The identifier-parsing prologue of `GetSpellInfoByFormId`: strip an
optional `0x`/`0X` prefix, truncate to the first 8 characters when longer
(logged as a warning, not rejected), validate that every remaining byte is a
hex digit, and convert. -/
def parseFormIdStr (s : List Nat) : Option Nat :=
  let clean := stripLeading0x s
  let clean := if clean.length > 8 then clean.take 8 else clean
  parseHexClean clean

-- =============================================================================
-- Data model of the host catalog (CommonLibSSE types as used by this file)
-- =============================================================================

/-- The slice of `RE::ActorValue` this file distinguishes: the five magic
schools, `kNone`, and every other actor value (`other`), which
`GetSchoolName` renders as "Unknown" but which is *not* `kNone`. -/
inductive ActorValue where
  | alteration | conjuration | destruction | illusion | restoration
  | none | other
deriving DecidableEq, Repr

/-- The slice of `RE::MagicSystem::CastingType` used by `GetCastingTypeName`. -/
inductive CastingType where
  | constantEffect | fireAndForget | concentration | scroll | other
deriving DecidableEq, Repr

/-- The slice of `RE::MagicSystem::Delivery` used by `GetDeliveryName`. -/
inductive Delivery where
  | self | touch | aimed | targetActor | targetLocation | other
deriving DecidableEq, Repr

/-- The spell-type check `data.spellType == RE::MagicSystem::SpellType::kSpell`
only distinguishes `kSpell` from everything else. -/
inductive SpellType where
  | spell | other
deriving DecidableEq, Repr

/-- An `RE::EffectSetting` (base effect) as read by this file. -/
structure BaseEffect where
  name : List Nat              -- GetFullName()
  school : ActorValue          -- GetMagickSkill()
  minimumSkill : Nat           -- GetMinimumSkillLevel()
  description : List Nat       -- magicItemDescription ("" when absent)
deriving DecidableEq, Repr

/-- An `RE::Effect` entry of a spell's effect list; `baseEffect` may be null. -/
structure EffectEntry where
  baseEffect : Option BaseEffect
  magnitude : ℚ                -- effectItem.magnitude (float)
  duration : Int               -- effectItem.duration
  area : Nat                   -- effectItem.area
deriving DecidableEq, Repr

/-- An `RE::BGSKeyword`; its editor id may be null. -/
structure Keyword where
  editorId : Option (List Nat)
deriving DecidableEq, Repr

/-- An `RE::SpellItem` as read by this file.  `effects` entries may be null
pointers; `editorId` is null or a byte string; `keywords` is null or an
array (of possibly-null keyword pointers) of length `numKeywords`;
`magickaCost` is the value of `CalculateMagickaCost(nullptr)`. -/
structure SpellItem where
  formId : Nat
  spellType : SpellType
  editorId : Option (List Nat)
  name : List Nat
  effects : List (Option EffectEntry)
  magickaCost : ℚ
  castingType : CastingType
  delivery : Delivery
  chargeTime : ℚ
  keywords : Option (List (Option Keyword))
deriving DecidableEq, Repr

/-- An `RE::TESObjectBOOK`: `teachesSpell` is `TeachesSpell()`, `spell` is
`GetSpell()` (null when the book teaches nothing resolvable). -/
structure Book where
  formId : Nat
  name : List Nat
  teachesSpell : Bool
  spell : Option SpellItem
deriving DecidableEq, Repr

/-- Result of `RE::TESForm::LookupByID` followed by `form->As<RE::SpellItem>()`:
either a spell or some other form kind. -/
inductive Form where
  | spell (s : SpellItem)
  | other
deriving DecidableEq, Repr

/-- The `SpellEffectivenessHook` singleton's two queried operations. -/
structure EffHook where
  isEarlyLearned : Nat → Bool        -- IsEarlyLearnedSpell(formId)
  calcEffectiveness : Nat → ℚ        -- CalculateEffectiveness(formId), a float ratio

/-- The host environment: the data handler's form arrays and mod tables,
the global form lookup, and the effectiveness hook singleton (null when
`GetSingleton()` returns null). -/
structure Env where
  spells : List (Option SpellItem)                  -- GetFormArray<RE::SpellItem>()
  books : List (Option Book)                        -- GetFormArray<RE::TESObjectBOOK>()
  modFileByIndex : Nat → Option (List Nat)          -- LookupLoadedModByIndex(i)->fileName
  lightModFileByIndex : Nat → Option (List Nat)     -- LookupLoadedLightModByIndex(i)->fileName
  lookupById : Nat → Option Form                    -- RE::TESForm::LookupByID + As<SpellItem>
  hook : Option EffHook                             -- SpellEffectivenessHook::GetSingleton()

-- =============================================================================
-- Name helpers (SpellScanner.cpp lines 178-243)
-- =============================================================================

/-- Model of `GetSchoolName`. -/
def GetSchoolName : ActorValue → List Nat
  | .alteration => bytes "Alteration"
  | .conjuration => bytes "Conjuration"
  | .destruction => bytes "Destruction"
  | .illusion => bytes "Illusion"
  | .restoration => bytes "Restoration"
  | _ => bytes "Unknown"

/-- Model of `GetCastingTypeName`. -/
def GetCastingTypeName : CastingType → List Nat
  | .constantEffect => bytes "Constant Effect"
  | .fireAndForget => bytes "Fire and Forget"
  | .concentration => bytes "Concentration"
  | .scroll => bytes "Scroll"
  | .other => bytes "Unknown"

/-- Model of `GetDeliveryName`. -/
def GetDeliveryName : Delivery → List Nat
  | .self => bytes "Self"
  | .touch => bytes "Touch"
  | .aimed => bytes "Aimed"
  | .targetActor => bytes "Target Actor"
  | .targetLocation => bytes "Target Location"
  | .other => bytes "Unknown"

/-- Model of `GetSkillLevelName`. -/
def GetSkillLevelName (minimumSkill : Nat) : List Nat :=
  if minimumSkill < 25 then bytes "Novice"
  else if minimumSkill < 50 then bytes "Apprentice"
  else if minimumSkill < 75 then bytes "Adept"
  else if minimumSkill < 100 then bytes "Expert"
  else bytes "Master"

/-- Model of `GetPluginName`: the high byte of the form id selects the mod
table ( `0xFE` routes through the 12-bit light-mod sub-index); a null data
handler or a missing table entry yields "Unknown". -/
def GetPluginName (dh : Option Env) (formId : Nat) : List Nat :=
  match dh with
  | Option.none => bytes "Unknown"
  | some env =>
    let modIndex := formId / 2 ^ 24 % 256          -- (formId >> 24) & 0xFF
    if modIndex = 254 then
      let lightIndex := formId / 2 ^ 12 % 4096     -- (formId >> 12) & 0xFFF
      match env.lightModFileByIndex lightIndex with
      | some file => file
      | Option.none => bytes "Unknown"
    else
      match env.modFileByIndex modIndex with
      | some file => file
      | Option.none => bytes "Unknown"

-- =============================================================================
-- Scan records (the per-spell JSON objects of both scan modes)
-- =============================================================================

/-- One entry of a record's `effects` array. -/
structure EffectRecord where
  name : List Nat
  magnitude : ℚ
  duration : Int
  area : Nat
  description : Option (List Nat)   -- key emitted only for a non-empty description
deriving DecidableEq, Repr

/-- One per-spell JSON object of `ScanSpellsToJson` / `ScanSpellTomes`.
Conditionally-emitted keys are `Option` fields (`none` = key absent);
`tomeFormId`/`tomeName` are only present in tome-scan records. -/
structure ScanRecord where
  formId : List Nat
  name : List Nat
  school : List Nat
  skillLevel : List Nat
  tomeFormId : Option (List Nat)
  tomeName : Option (List Nat)
  editorId : Option (List Nat)
  magickaCost : Option ℚ
  minimumSkill : Option Nat
  castingType : Option (List Nat)
  delivery : Option (List Nat)
  chargeTime : Option ℚ
  plugin : Option (List Nat)
  effects : Option (List EffectRecord)
  effectNames : Option (List (List Nat))
  keywords : Option (List (List Nat))
deriving DecidableEq, Repr

/-- School and minimum skill taken from the first effect (both scan modes and
the detail path read only `effects[0]`); defaults are `kNone` and `0` when
there is no first effect or its base effect is null. -/
def firstEffectSchool (spell : SpellItem) : ActorValue × Nat :=
  match spell.effects with
  | some e :: _ =>
    match e.baseEffect with
    | some b => (b.school, b.minimumSkill)
    | Option.none => (ActorValue.none, 0)
  | _ => (ActorValue.none, 0)

/-- The `effects` array built when `fields.effects` is set: one entry per
non-null effect with non-null base effect; the `description` key is present
only when the raw description is non-empty. -/
def buildEffectRecords (spell : SpellItem) : List EffectRecord :=
  spell.effects.filterMap fun oe =>
    oe.bind fun e =>
      e.baseEffect.map fun b =>
        { name := SanitizeToUTF8 b.name
          magnitude := e.magnitude
          duration := e.duration
          area := e.area
          description := if b.description.isEmpty then Option.none
                         else some (SanitizeToUTF8 b.description) }

/-- The flat `effectNames` array built when only `fields.effectNames` is set. -/
def buildEffectNames (spell : SpellItem) : List (List Nat) :=
  spell.effects.filterMap fun oe =>
    oe.bind fun e => e.baseEffect.map fun b => SanitizeToUTF8 b.name

/-- The `keywords` array: non-null keywords whose editor id is non-null and
non-empty. -/
def buildKeywords (kws : List (Option Keyword)) : List (List Nat) :=
  kws.filterMap fun ok =>
    ok.bind fun k =>
      k.editorId.bind fun e => if e.isEmpty then Option.none else some e

/-- The record body shared by both scan modes (essential fields plus the
flag-guarded optional fields; `effects` takes precedence over
`effectNames`).  `tomeFormId`/`tomeName` are filled by the tome scan. -/
def projectRecord (dh : Option Env) (fields : FieldConfig) (spell : SpellItem) :
    ScanRecord :=
  let sm := firstEffectSchool spell
  { formId := renderFormId spell.formId
    name := SanitizeToUTF8 spell.name
    school := GetSchoolName sm.1
    skillLevel := GetSkillLevelName sm.2
    tomeFormId := Option.none
    tomeName := Option.none
    editorId := if fields.editorId then spell.editorId else Option.none
    magickaCost := if fields.magickaCost then some spell.magickaCost else Option.none
    minimumSkill := if fields.minimumSkill then some sm.2 else Option.none
    castingType := if fields.castingType then some (GetCastingTypeName spell.castingType)
                   else Option.none
    delivery := if fields.delivery then some (GetDeliveryName spell.delivery)
                else Option.none
    chargeTime := if fields.chargeTime then some spell.chargeTime else Option.none
    plugin := if fields.plugin then some (GetPluginName dh spell.formId) else Option.none
    effects := if fields.effects then some (buildEffectRecords spell) else Option.none
    effectNames := if ¬fields.effects ∧ fields.effectNames
                   then some (buildEffectNames spell) else Option.none
    keywords := if fields.keywords then
                  match spell.keywords with
                  | some kws => some (buildKeywords kws)
                  | Option.none => Option.none
                else Option.none }

-- =============================================================================
-- Full scan: `ScanSpellsToJson` (SpellScanner.cpp lines 249-490)
-- =============================================================================

/-- Does the display name start with `"0x"` or `"0X"` (length ≥ 2 is implied
by the two-byte prefix match)? -/
def nameLooks0x (name : List Nat) : Bool :=
  startsWithB name (bytes "0x") || startsWithB name (bytes "0X")

/-- Is every byte of the name a hex digit or a space (the `allHex` loop)? -/
def allHexName (name : List Nat) : Bool :=
  name.all fun c => isHexDigitByte c || c == 32

/-- The per-effect validity test of the `hasValidEffect` loop: a non-empty
name of length > 2 that does not start with `"0x"`/`"0X"`. -/
def isValidEffectName (n : List Nat) : Bool :=
  !n.isEmpty && n.length > 2 && !startsWithB n (bytes "0x")
    && !startsWithB n (bytes "0X")

/-- Does some non-null effect with a non-null base effect have a valid name? -/
def hasValidEffect (spell : SpellItem) : Bool :=
  spell.effects.any fun oe =>
    match oe with
    | some e =>
      match e.baseEffect with
      | some b => isValidEffectName b.name
      | Option.none => false
    | Option.none => false

/-- Accumulator of the `ScanSpellsToJson` loop: the growing record array and
the three counters the source logs. -/
structure ScanState where
  records : List ScanRecord := []
  scannedCount : Nat := 0
  skippedCount : Nat := 0
  filteredCount : Nat := 0
deriving DecidableEq, Repr

/-- One iteration of the `ScanSpellsToJson` loop, with the source's
`continue` chain rendered as nested conditionals in the same order. -/
def fullScanStep (dh : Option Env) (fields : FieldConfig) (st : ScanState)
    (osp : Option SpellItem) : ScanState :=
  match osp with
  | Option.none => st
  | some spell =>
    if spell.spellType ≠ SpellType.spell then
      { st with skippedCount := st.skippedCount + 1 }
    else if spell.name.isEmpty ∨ spell.editorId = Option.none
        ∨ spell.editorId = some [] then
      { st with skippedCount := st.skippedCount + 1 }
    else if nameLooks0x spell.name then
      { st with filteredCount := st.filteredCount + 1 }
    else if allHexName spell.name ∧ spell.name.length ≥ 6 then
      { st with filteredCount := st.filteredCount + 1 }
    else if isNonPlayerSpell (spell.editorId.getD []) then
      { st with filteredCount := st.filteredCount + 1 }
    else if (firstEffectSchool spell).1 = ActorValue.none then
      { st with skippedCount := st.skippedCount + 1 }
    else if 1000 < spell.magickaCost then
      { st with filteredCount := st.filteredCount + 1 }
    else if ¬hasValidEffect spell then
      { st with filteredCount := st.filteredCount + 1 }
    else
      { st with records := st.records ++ [projectRecord dh fields spell]
                scannedCount := st.scannedCount + 1 }

/-- Model of `ScanSpellsToJson`: a null data handler yields the empty array
(and zero counters); otherwise the loop runs over the spell form array. -/
def ScanSpellsToJson (dh : Option Env) (fields : FieldConfig) : ScanState :=
  match dh with
  | Option.none => {}
  | some env => env.spells.foldl (fullScanStep dh fields) {}

-- Claim-side restatement of the full-scan gate, used to compare the loop
-- against the specification's list of skip/filter conditions.

/-- Specification-side eligibility: the entity is of the spell kind and has a
non-empty name and a non-null, non-empty editor id (the "skip" conditions of
the spec, negated). -/
def fullScanEligible (s : SpellItem) : Bool :=
  s.spellType = SpellType.spell && !s.name.isEmpty
    && (match s.editorId with
        | some e => !e.isEmpty
        | Option.none => false)

/-- Specification-side exclusion: the disjunction of the five filter
conditions the claim lists (FormID-looking or all-hex name, classifier
match, unresolvable school from the first effect, cost above 1000, no valid
effect name). -/
def fullScanFilterOut (s : SpellItem) : Bool :=
  nameLooks0x s.name
  || (allHexName s.name && decide (s.name.length ≥ 6))
  || isNonPlayerSpell (s.editorId.getD [])
  || decide ((firstEffectSchool s).1 = ActorValue.none)
  || decide (1000 < s.magickaCost)
  || !hasValidEffect s

/-- The record (if any) a single form-array slot contributes to the
full-scan output. -/
def fullScanKeep (dh : Option Env) (fields : FieldConfig)
    (osp : Option SpellItem) : Option ScanRecord :=
  osp.bind fun s =>
    if fullScanEligible s && !fullScanFilterOut s
    then some (projectRecord dh fields s) else Option.none

-- =============================================================================
-- Tome scan: `ScanSpellTomes` (SpellScanner.cpp lines 546-713)
-- =============================================================================

/-- Accumulator of the `ScanSpellTomes` loop: records, the `seenSpellIds`
set (modelled as the list of inserted ids), and the two counters. -/
structure TomeScanState where
  records : List ScanRecord := []
  seen : List Nat := []
  tomeCount : Nat := 0
  skippedDuplicates : Nat := 0

/-- The record emitted for one kept tome: the shared record body plus the two
always-present tome fields (`tomeFormId`, `tomeName`). -/
def tomeRecord (dh : Option Env) (fields : FieldConfig) (book : Book)
    (spell : SpellItem) : ScanRecord :=
  { projectRecord dh fields spell with
    tomeFormId := some (renderFormId book.formId)
    tomeName := some (SanitizeToUTF8 book.name) }

/-- The body of one `ScanSpellTomes` iteration once the book is known to
teach a resolvable spell.  Note the order in the source: the duplicate check
and the `seenSpellIds.insert` happen *before* the empty-name and school
checks, so a spell skipped for those reasons still blocks later tomes that
teach it. -/
def tomeScanSpell (dh : Option Env) (fields : FieldConfig) (book : Book)
    (spell : SpellItem) (st : TomeScanState) : TomeScanState :=
  if spell.formId ∈ st.seen then
    { st with skippedDuplicates := st.skippedDuplicates + 1 }
  else
    let seen := spell.formId :: st.seen
    if spell.name.isEmpty then { st with seen := seen }
    else if (firstEffectSchool spell).1 = ActorValue.none then
      { st with seen := seen }
    else
      { st with seen := seen
                records := st.records ++ [tomeRecord dh fields book spell]
                tomeCount := st.tomeCount + 1 }

/-- One iteration of the `ScanSpellTomes` loop: null books and books that do
not teach a resolvable spell are passed over without touching the state. -/
def tomeScanStep (dh : Option Env) (fields : FieldConfig) (st : TomeScanState)
    (ob : Option Book) : TomeScanState :=
  match ob with
  | Option.none => st
  | some book =>
    if ¬book.teachesSpell then st
    else
      match book.spell with
      | Option.none => st
      | some spell => tomeScanSpell dh fields book spell st

/-- Model of `ScanSpellTomes`: `none` models the `"{}"` early return on a
null data handler; otherwise the loop runs over the book form array.
(The timestamp, `scanMode` tag and prompt of the output wrapper carry no
record data and are omitted; `spellCount` is `records.length`.) -/
def ScanSpellTomes (dh : Option Env) (config : ScanConfig) :
    Option TomeScanState :=
  match dh with
  | Option.none => Option.none
  | some env => some (env.books.foldl (tomeScanStep dh config.fields) {})

/-- Invariant of the tome-scan loop: record formIds are pairwise distinct,
and every record's formId is the rendering of some already-seen 32-bit id. -/
def tomeInv (st : TomeScanState) : Prop :=
  (st.records.map ScanRecord.formId).Nodup ∧
  ∀ r ∈ st.records, ∃ fid, fid ∈ st.seen ∧ fid < 2 ^ 32 ∧ r.formId = renderFormId fid

-- =============================================================================
-- Detail lookup: `GetSpellInfoByFormId` (SpellScanner.cpp lines 719-858)
-- =============================================================================

/-- One entry of the detail document's `scaledEffects` array. -/
structure ScaledEffectRecord where
  name : List Nat
  originalMagnitude : ℚ
  scaledMagnitude : Int
  duration : Int
deriving DecidableEq, Repr

/-- The detail document `GetSpellInfoByFormId` serializes on success. -/
structure SpellInfoDoc where
  formId : List Nat          -- the caller's input string, echoed
  name : List Nat
  editorId : List Nat
  school : List Nat
  level : List Nat
  skillLevel : List Nat
  minimumSkill : Nat
  cost : ℚ
  magickaCost : ℚ
  type : List Nat
  castingType : List Nat
  delivery : List Nat
  chargeTime : ℚ
  plugin : List Nat
  effects : List EffectRecord
  effectNames : List (List Nat)
  description : List Nat
  isWeakened : Bool
  effectiveness : Int
  scaledEffects : Option (List ScaledEffectRecord)
deriving DecidableEq, Repr

/-- Truncation toward zero of a rational: the behaviour of
`static_cast<int>` on a float value (`Int.tdiv` is T-division, which
truncates toward zero, and a rational is stored as an exact
numerator/denominator pair). -/
def cppTruncInt (q : ℚ) : Int := Int.tdiv q.num (q.den : Int)

/-- The school/level/minimumSkill triple of the detail path: unlike the scan
paths, a missing first effect leaves school *and* level at the string
"Unknown" (not `GetSkillLevelName 0`). -/
def detailSchoolLevel (spell : SpellItem) : List Nat × List Nat × Nat :=
  match spell.effects with
  | some e :: _ =>
    match e.baseEffect with
    | some b => (GetSchoolName b.school, GetSkillLevelName b.minimumSkill,
                 b.minimumSkill)
    | Option.none => (bytes "Unknown", bytes "Unknown", 0)
  | _ => (bytes "Unknown", bytes "Unknown", 0)

/-- One iteration of the detail path's effects loop: null effects and null
base effects are skipped; otherwise the effect record and effect name are
appended, and the spell `description` is set to the sanitized effect
description if one is present and the description is still empty. -/
def detailStep (acc : List EffectRecord × List (List Nat) × List Nat)
    (oe : Option EffectEntry) : List EffectRecord × List (List Nat) × List Nat :=
  match oe with
  | Option.none => acc
  | some e =>
    match e.baseEffect with
    | Option.none => acc
    | some b =>
      let effectName := SanitizeToUTF8 b.name
      let rec₀ : EffectRecord :=
        { name := effectName
          magnitude := e.magnitude
          duration := e.duration
          area := e.area
          description := if b.description.isEmpty then Option.none
                         else some (SanitizeToUTF8 b.description) }
      let desc := if ¬b.description.isEmpty ∧ acc.2.2.isEmpty
                  then SanitizeToUTF8 b.description else acc.2.2
      (acc.1 ++ [rec₀], acc.2.1 ++ [effectName], desc)

/-- The detail path's effects loop: accumulates the `effects` array, the
`effectNames` array, and the spell `description` (the sanitized description
of the first effect whose raw description is non-empty). -/
def detailEffectsLoop (effects : List (Option EffectEntry)) :
    List EffectRecord × List (List Nat) × List Nat :=
  effects.foldl detailStep ([], [], [])

/-- The raw description (if non-empty) contributed by one effect-list entry:
the per-entry selector the description rule quantifies over. -/
def effectRawDesc (oe : Option EffectEntry) : Option (List Nat) :=
  oe.bind fun e => e.baseEffect.bind fun b =>
    if b.description.isEmpty then Option.none else some b.description

/-- The `scaledEffects` array built for an early-learned spell with
effectiveness ratio `r`. -/
def buildScaledEffects (spell : SpellItem) (r : ℚ) : List ScaledEffectRecord :=
  spell.effects.filterMap fun oe =>
    oe.bind fun e =>
      e.baseEffect.map fun b =>
        { name := SanitizeToUTF8 b.name
          originalMagnitude := e.magnitude
          scaledMagnitude := cppTruncInt (e.magnitude * r)
          duration := e.duration }

/-- The detail document built once the identifier has resolved to a spell. -/
def buildSpellInfo (env : Env) (input : List Nat) (formId : Nat)
    (spell : SpellItem) : SpellInfoDoc :=
  let sl := detailSchoolLevel spell
  let eff := detailEffectsLoop spell.effects
  let early := match env.hook with
               | some h => h.isEarlyLearned formId
               | Option.none => false
  { formId := input
    name := SanitizeToUTF8 spell.name
    editorId := spell.editorId.getD []
    school := sl.1
    level := sl.2.1
    skillLevel := sl.2.1
    minimumSkill := sl.2.2
    cost := spell.magickaCost
    magickaCost := spell.magickaCost
    type := GetCastingTypeName spell.castingType
    castingType := GetCastingTypeName spell.castingType
    delivery := GetDeliveryName spell.delivery
    chargeTime := spell.chargeTime
    plugin := GetPluginName (some env) formId
    effects := eff.1
    effectNames := eff.2.1
    description := eff.2.2
    isWeakened := early
    effectiveness := if early then
                       match env.hook with
                       | some h => cppTruncInt (h.calcEffectiveness formId * 100)
                       | Option.none => 100
                     else 100
    scaledEffects := if early then
                       match env.hook with
                       | some h => some (buildScaledEffects spell
                                          (h.calcEffectiveness formId))
                       | Option.none => Option.none
                     else Option.none }

/-- Model of `GetSpellInfoByFormId`: parse the identifier (any failure,
including the `std::stoul` exception on an empty cleaned string, returns
`""`, modelled `none`), look the form up, require a spell, and build the
document.  The C++ function catches every parse exception and has no other
throwing operation, so it never propagates an exception; totality of this
model reflects that. -/
def GetSpellInfoByFormId (env : Env) (input : List Nat) : Option SpellInfoDoc :=
  match parseFormIdStr input with
  | Option.none => Option.none
  | some formId =>
    match env.lookupById formId with
    | Option.none => Option.none
    | some Form.other => Option.none
    | some (Form.spell spell) => some (buildSpellInfo env input formId spell)

-- =============================================================================
-- Concrete fixtures used to instantiate the theorems on closed inputs
-- =============================================================================

/-- The base effect of the tome fixtures. -/
def wBase : BaseEffect :=
  { name := bytes "Heal Wounds", school := ActorValue.restoration
    minimumSkill := 0, description := bytes "Heals the target." }

/-- A healing effect with a resolvable school and a description. -/
def wEffect : EffectEntry :=
  { baseEffect := some wBase, magnitude := 40, duration := 2, area := 0 }

/-- A plain player spell taught by two different tomes. -/
def wSpellA : SpellItem :=
  { formId := 256, spellType := SpellType.spell, editorId := some (bytes "HealSpell")
    name := bytes "Healing", effects := [some wEffect], magickaCost := 30
    castingType := CastingType.fireAndForget, delivery := Delivery.self
    chargeTime := 1 / 2, keywords := Option.none }

/-- A second, distinct spell. -/
def wSpellB : SpellItem :=
  { wSpellA with formId := 512, name := bytes "Fireball",
                 editorId := some (bytes "FireSpell") }

/-- First tome teaching `wSpellA`. -/
def wBook1 : Book :=
  { formId := 4096, name := bytes "Tome of Healing", teachesSpell := true
    spell := some wSpellA }

/-- Second tome teaching `wSpellA` (the duplicate teaching route). -/
def wBook2 : Book := { wBook1 with formId := 4097 }

/-- Third tome teaching `wSpellB`. -/
def wBook3 : Book :=
  { formId := 4098, name := bytes "Tome of Fire", teachesSpell := true
    spell := some wSpellB }

/-- A catalog with three tomes, two of which teach the same spell. -/
def c1Env : Env :=
  { spells := [], books := [some wBook1, some wBook2, some wBook3]
    modFileByIndex := fun _ => Option.none
    lightModFileByIndex := fun _ => Option.none
    lookupById := fun _ => Option.none, hook := Option.none }

/-- A spell whose display name is a raw FormID string. -/
def c2Spell0x : SpellItem := { wSpellA with name := bytes "0x000A26FF" }

/-- A spell whose computed magicka cost is 1500. -/
def c2SpellCost : SpellItem := { wSpellA with magickaCost := 1500 }

/-- A spell with no effects (hence no resolvable school). -/
def c2SpellNoFx : SpellItem := { wSpellA with effects := [] }

/-- A spell living at identifier 0x12345678. -/
def c3Spell : SpellItem := { wSpellA with formId := 305419896 }

/-- A catalog whose only entity sits at identifier 0x12345678. -/
def c3Env : Env :=
  { spells := [], books := []
    modFileByIndex := fun _ => Option.none
    lightModFileByIndex := fun _ => Option.none
    lookupById := fun fid => if fid = 305419896 then some (Form.spell c3Spell)
                             else Option.none
    hook := Option.none }

/-- The base effect of the detail-path fixtures (no description). -/
def c5Base : BaseEffect :=
  { name := bytes "Spark", school := ActorValue.destruction
    minimumSkill := 10, description := [] }

/-- A one-effect spell (magnitude 40) at identifier 0x1234. -/
def c5Spell : SpellItem :=
  { formId := 4660, spellType := SpellType.spell
    editorId := some (bytes "SparkSpell"), name := bytes "Spark"
    effects := [some { baseEffect := some c5Base, magnitude := 40, duration := 3, area := 0 }]
    magickaCost := 20, castingType := CastingType.fireAndForget
    delivery := Delivery.aimed, chargeTime := 0, keywords := Option.none }

/-- An effectiveness subsystem reporting `c5Spell` as early-learned at
ratio 1/2. -/
def c5Hook : EffHook :=
  { isEarlyLearned := fun fid => fid == 4660
    calcEffectiveness := fun _ => 1 / 2 }

/-- A catalog holding `c5Spell` and the weakening hook. -/
def c5Env : Env :=
  { spells := [], books := []
    modFileByIndex := fun _ => Option.none
    lightModFileByIndex := fun _ => Option.none
    lookupById := fun fid => if fid = 4660 then some (Form.spell c5Spell)
                             else Option.none
    hook := some c5Hook }

/-- A base effect carrying a description. -/
def c10Burn : BaseEffect :=
  { name := bytes "Burn", school := ActorValue.destruction
    minimumSkill := 10, description := bytes "Burns the target." }

/-- A spell sitting at identifier 0x12FCD, for the verbatim-echo example. -/
def c9Env : Env :=
  { spells := [], books := []
    modFileByIndex := fun _ => Option.none
    lightModFileByIndex := fun _ => Option.none
    lookupById := fun fid => if fid = 77773 then some (Form.spell c5Spell)
                             else Option.none
    hook := Option.none }

/-- A two-effect spell whose first effect has no description and whose
second does. -/
def c10Spell : SpellItem :=
  { c5Spell with
    formId := 4661
    effects := [some { baseEffect := some c5Base, magnitude := 40, duration := 3, area := 0 },
                some { baseEffect := some c10Burn, magnitude := 5, duration := 4, area := 0 }] }

/-- A catalog holding `c10Spell` and no weakening hook. -/
def c10Env : Env :=
  { spells := [], books := []
    modFileByIndex := fun _ => Option.none
    lightModFileByIndex := fun _ => Option.none
    lookupById := fun fid => if fid = 4661 then some (Form.spell c10Spell)
                             else Option.none
    hook := Option.none }


-- =============================================================================
-- Supporting lemmas
-- =============================================================================
lemma sanitizeByte_eq_self (c : Nat) (h : c < 128 ∨ 160 ≤ c) : sanitizeByte c = [c] := by
  unfold sanitizeByte
  rcases h with h | h
  · simp [h]
  · have h1 : ¬ c < 128 := by omega
    have h2 : ¬ c ≤ 159 := by omega
    simp [h1, h2]

lemma mem_sanitizeByte (c b : Nat) (h : b ∈ sanitizeByte c) : b < 128 ∨ 160 ≤ b := by
  unfold sanitizeByte at h
  split_ifs at h <;> simp_all <;> omega

lemma sanitize_append (a b : List Nat) :
    SanitizeToUTF8 (a ++ b) = SanitizeToUTF8 a ++ SanitizeToUTF8 b := by
  induction a with
  | nil => rfl
  | cons c cs ih => simp [SanitizeToUTF8, ih]

lemma mem_sanitize (x : List Nat) (b : Nat) (h : b ∈ SanitizeToUTF8 x) :
    b < 128 ∨ 160 ≤ b := by
  induction x with
  | nil => simp [SanitizeToUTF8] at h
  | cons c cs ih =>
    simp only [SanitizeToUTF8, List.mem_append] at h
    rcases h with h | h
    · exact mem_sanitizeByte c b h
    · exact ih h

lemma sanitize_eq_self_of (x : List Nat) (h : ∀ b ∈ x, b < 128 ∨ 160 ≤ b) :
    SanitizeToUTF8 x = x := by
  induction x with
  | nil => rfl
  | cons c cs ih =>
    simp only [SanitizeToUTF8]
    rw [sanitizeByte_eq_self c (h c (by simp)), ih (fun b hb => h b (by simp [hb]))]
    rfl

lemma sanitize_idem (x : List Nat) :
    SanitizeToUTF8 (SanitizeToUTF8 x) = SanitizeToUTF8 x :=
  sanitize_eq_self_of _ (mem_sanitize x)

lemma sanitizeByte_ne_nil (c : Nat) : sanitizeByte c ≠ [] := by
  unfold sanitizeByte; split_ifs <;> simp

lemma sanitize_ne_nil (c : Nat) (rest : List Nat) :
    SanitizeToUTF8 (c :: rest) ≠ [] := by
  simp only [SanitizeToUTF8]
  intro h
  exact sanitizeByte_ne_nil c (List.append_eq_nil.mp h).1

lemma lowerByte_idem (c : Nat) : lowerByte (lowerByte c) = lowerByte c := by
  unfold lowerByte; split_ifs <;> omega

lemma toLowerBytes_idem (s : List Nat) :
    toLowerBytes (toLowerBytes s) = toLowerBytes s := by
  induction s with
  | nil => rfl
  | cons c cs ih => simp only [toLowerBytes, List.map] at *; rw [lowerByte_idem]; simp_all

lemma bool_if_true (c r : Bool) : (if c then true else r) = (c || r) := by
  cases c <;> simp

lemma nps_lower (s : List Nat) :
    isNonPlayerSpell (toLowerBytes s) = isNonPlayerSpell s := by
  simp only [isNonPlayerSpell, toLowerBytes_idem]

lemma nps_disj (s : List Nat) :
    isNonPlayerSpell s = nonPlayerDisjunction s := by
  simp only [isNonPlayerSpell, nonPlayerDisjunction, bool_if_true, Bool.or_assoc,
    Bool.or_false]

lemma hexDigitVal_hexDigitChar (d : Nat) (h : d < 16) :
    hexDigitVal (hexDigitChar d) = some d := by
  unfold hexDigitVal hexDigitChar
  split_ifs <;> first
    | (simp only [Option.some.injEq]; omega)
    | (exfalso; omega)

lemma hexDigitVal_hexDigitChar_mod (x : Nat) :
    hexDigitVal (hexDigitChar (x % 16)) = some (x % 16) :=
  hexDigitVal_hexDigitChar _ (Nat.mod_lt _ (by norm_num))

lemma hexDigitChar_lt (d : Nat) (h : d < 16) : hexDigitChar d < 88 := by
  unfold hexDigitChar; split_ifs <;> omega

lemma hexAccum_hex8 (v : Nat) (h : v < 2 ^ 32) : hexAccum (hex8 v) = v := by
  simp only [hexAccum, hex8, List.foldl, hexDigitVal_hexDigitChar_mod,
    Option.getD_some]
  norm_num
  omega

lemma b0x : bytes "0x" = [48, 120] := by decide

lemma b0X : bytes "0X" = [48, 88] := by decide

lemma parseHexClean_hex8 (v : Nat) (h : v < 2 ^ 32) :
    parseHexClean (hex8 v) = some v := by
  have hall : (hex8 v).all (fun c => (hexDigitVal c).isSome) = true := by
    simp [hex8, hexDigitVal_hexDigitChar_mod]
  unfold parseHexClean
  rw [hall]
  simp only [hex8]
  rw [show ([hexDigitChar (v / 16 ^ 7 % 16), hexDigitChar (v / 16 ^ 6 % 16),
   hexDigitChar (v / 16 ^ 5 % 16), hexDigitChar (v / 16 ^ 4 % 16),
   hexDigitChar (v / 16 ^ 3 % 16), hexDigitChar (v / 16 ^ 2 % 16),
   hexDigitChar (v / 16 % 16), hexDigitChar (v % 16)] : List Nat) = hex8 v from rfl]
  rw [hexAccum_hex8 v h]
  simp


lemma lowerByte_48 : lowerByte 48 = 48 := by decide

lemma lowerByte_120 : lowerByte 120 = 120 := by decide

lemma hexDigitVal_lowerByte (c : Nat) : hexDigitVal (lowerByte c) = hexDigitVal c := by
  unfold hexDigitVal lowerByte
  split_ifs <;> first
    | rfl
    | (simp only [Option.some.injEq]; omega)
    | (exfalso; omega)

lemma hexAccum_lower (l : List Nat) : hexAccum (l.map lowerByte) = hexAccum l := by
  suffices h : ∀ acc : Nat,
      (l.map lowerByte).foldl (fun acc c => acc * 16 + (hexDigitVal c).getD 0) acc
        = l.foldl (fun acc c => acc * 16 + (hexDigitVal c).getD 0) acc by
    exact h 0
  induction l with
  | nil => intro acc; rfl
  | cons c cs ih =>
    intro acc
    simp only [List.map, List.foldl, hexDigitVal_lowerByte]
    exact ih _

lemma parseHexClean_lower (l : List Nat) :
    parseHexClean (l.map lowerByte) = parseHexClean l := by
  unfold parseHexClean
  have hall : ∀ m : List Nat, (m.map lowerByte).all (fun c => (hexDigitVal c).isSome)
      = m.all (fun c => (hexDigitVal c).isSome) := by
    intro m
    induction m with
    | nil => rfl
    | cons c cs ih => simp [List.all_cons, hexDigitVal_lowerByte, ih]
  rw [hall]
  cases l with
  | nil => rfl
  | cons c cs =>
    simp only [List.map]
    split_ifs with hcond
    · exact congrArg some (hexAccum_lower (c :: cs))
    · rfl

lemma hex8_parse_aux (v : Nat) (h : v < 2 ^ 32) :
    parseFormIdStr (hex8 v) = some v := by
  have hlt : hexDigitChar (v / 16 ^ 6 % 16) < 88 :=
    hexDigitChar_lt _ (Nat.mod_lt _ (by norm_num))
  unfold parseFormIdStr stripLeading0x
  rw [b0x, b0X]
  have hs1 : startsWithB (hex8 v) [48, 120] = false := by
    simp only [hex8, startsWithB, Bool.and_eq_false_iff]
    right
    left
    simp only [beq_eq_false_iff_ne, ne_eq]
    omega
  have hs2 : startsWithB (hex8 v) [48, 88] = false := by
    simp only [hex8, startsWithB, Bool.and_eq_false_iff]
    right
    left
    simp only [beq_eq_false_iff_ne, ne_eq]
    omega
  rw [hs1, hs2]
  simp only [Bool.or_self, Bool.false_eq_true, if_false]
  have hlen : (hex8 v).length = 8 := by simp [hex8]
  rw [hlen]
  simp only [Nat.lt_irrefl, if_false]
  exact parseHexClean_hex8 v h


lemma stripLeading0x_pref0x (l : List Nat) : stripLeading0x ([48, 120] ++ l) = l := by
  simp [stripLeading0x, startsWithB, b0x, b0X]

lemma stripLeading0x_pref0X (l : List Nat) : stripLeading0x ([48, 88] ++ l) = l := by
  simp [stripLeading0x, startsWithB, b0x, b0X]

lemma stripLeading0x_of_none (s : List Nat)
    (h1 : startsWithB s (bytes "0x") = false)
    (h2 : startsWithB s (bytes "0X") = false) : stripLeading0x s = s := by
  simp [stripLeading0x, h1, h2]

lemma parseFormIdStr_of_strip8 (s l : List Nat) (hs : stripLeading0x s = l)
    (hl : l.length = 8) : parseFormIdStr s = parseHexClean l := by
  unfold parseFormIdStr
  rw [hs]
  show parseHexClean (if l.length > 8 then l.take 8 else l) = parseHexClean l
  rw [hl]
  norm_num

lemma hex8_length (v : Nat) : (hex8 v).length = 8 := by simp [hex8]

lemma hex8_not_pref0x (v : Nat) : startsWithB (hex8 v) (bytes "0x") = false := by
  have hlt : hexDigitChar (v / 16 ^ 6 % 16) < 88 :=
    hexDigitChar_lt _ (Nat.mod_lt _ (by norm_num))
  rw [b0x]
  simp only [hex8, startsWithB, Bool.and_eq_false_iff]
  right; left
  simp only [beq_eq_false_iff_ne, ne_eq]
  omega

lemma hex8_not_pref0X (v : Nat) : startsWithB (hex8 v) (bytes "0X") = false := by
  have hlt : hexDigitChar (v / 16 ^ 6 % 16) < 88 :=
    hexDigitChar_lt _ (Nat.mod_lt _ (by norm_num))
  rw [b0X]
  simp only [hex8, startsWithB, Bool.and_eq_false_iff]
  right; left
  simp only [beq_eq_false_iff_ne, ne_eq]
  omega

lemma lowerByte_of_lt_88 (c : Nat) (h : c < 88) :
    lowerByte c ≠ 120 ∧ lowerByte c ≠ 88 := by
  unfold lowerByte; split_ifs <;> omega

lemma lower_hex8_not_pref0x (v : Nat) :
    startsWithB ((hex8 v).map lowerByte) (bytes "0x") = false := by
  have hlt : hexDigitChar (v / 16 ^ 6 % 16) < 88 :=
    hexDigitChar_lt _ (Nat.mod_lt _ (by norm_num))
  have h2 := lowerByte_of_lt_88 _ hlt
  rw [b0x]
  simp only [hex8, List.map, startsWithB, Bool.and_eq_false_iff]
  right; left
  simp only [beq_eq_false_iff_ne, ne_eq]
  exact h2.1

lemma lower_hex8_not_pref0X (v : Nat) :
    startsWithB ((hex8 v).map lowerByte) (bytes "0X") = false := by
  have hlt : hexDigitChar (v / 16 ^ 6 % 16) < 88 :=
    hexDigitChar_lt _ (Nat.mod_lt _ (by norm_num))
  have h2 := lowerByte_of_lt_88 _ hlt
  rw [b0X]
  simp only [hex8, List.map, startsWithB, Bool.and_eq_false_iff]
  right; left
  simp only [beq_eq_false_iff_ne, ne_eq]
  exact h2.2

lemma parse_render (v : Nat) (h : v < 2 ^ 32) :
    parseFormIdStr (renderFormId v) = some v := by
  rw [show renderFormId v = [48, 120] ++ hex8 v from by rw [renderFormId, b0x]]
  rw [parseFormIdStr_of_strip8 _ _ (stripLeading0x_pref0x _) (hex8_length v)]
  exact parseHexClean_hex8 v h

lemma parse_render0X (v : Nat) (h : v < 2 ^ 32) :
    parseFormIdStr ([48, 88] ++ hex8 v) = some v := by
  rw [parseFormIdStr_of_strip8 _ _ (stripLeading0x_pref0X _) (hex8_length v)]
  exact parseHexClean_hex8 v h

lemma parse_bare (v : Nat) (h : v < 2 ^ 32) :
    parseFormIdStr (hex8 v) = some v := by
  rw [parseFormIdStr_of_strip8 _ _
    (stripLeading0x_of_none _ (hex8_not_pref0x v) (hex8_not_pref0X v)) (hex8_length v)]
  exact parseHexClean_hex8 v h

lemma parse_lower_render (v : Nat) (h : v < 2 ^ 32) :
    parseFormIdStr (toLowerBytes (renderFormId v)) = some v := by
  have hmap : toLowerBytes (renderFormId v) = [48, 120] ++ (hex8 v).map lowerByte := by
    rw [renderFormId, b0x]
    simp [toLowerBytes, List.map_append, lowerByte]
  rw [hmap]
  rw [parseFormIdStr_of_strip8 _ _ (stripLeading0x_pref0x _)
    (by rw [List.length_map]; exact hex8_length v)]
  rw [parseHexClean_lower]
  exact parseHexClean_hex8 v h

lemma parse_lower_bare (v : Nat) (h : v < 2 ^ 32) :
    parseFormIdStr (toLowerBytes (hex8 v)) = some v := by
  rw [show toLowerBytes (hex8 v) = (hex8 v).map lowerByte from rfl]
  rw [parseFormIdStr_of_strip8 _ _
    (stripLeading0x_of_none _ (lower_hex8_not_pref0x v) (lower_hex8_not_pref0X v))
    (by rw [List.length_map]; exact hex8_length v)]
  rw [parseHexClean_lower]
  exact parseHexClean_hex8 v h

lemma fkey_mem_fieldKeys (k : FKey) : k ∈ fieldKeys := by cases k <;> simp [fieldKeys]

lemma fkey_get_set (k k' : FKey) (c : FieldConfig) (b : Bool) :
    FKey.get k' (FKey.set k c b) = if k' = k then b else FKey.get k' c := by
  cases k <;> cases k' <;> simp [FKey.get, FKey.set]

lemma applyBoolField_cases (f : Json) (k : FKey) (c : FieldConfig) :
    (∃ b, f.find k.name = some (.bool b) ∧ applyBoolField f k c = .ok (k.set c b))
    ∨ (f.find k.name = none ∧ applyBoolField f k c = .ok c)
    ∨ applyBoolField f k c = .error c := by
  unfold applyBoolField
  rcases hf : f.find k.name with _ | v
  · right; left; exact ⟨rfl, rfl⟩
  · cases v with
    | bool b => left; exact ⟨b, rfl, rfl⟩
    | null => right; right; rfl
    | num q => right; right; rfl
    | str s => right; right; rfl
    | arr es => right; right; rfl
    | obj es => right; right; rfl

lemma applyBoolFields_get_preserved (f : Json) (l : List FKey) (k : FKey)
    (hk : ∀ k' ∈ l, k' ≠ k) (c : FieldConfig) :
    FKey.get k (exceptOut (applyBoolFields f l c)) = FKey.get k c := by
  induction l generalizing c with
  | nil => rfl
  | cons k' rest ih =>
    have hne : k' ≠ k := hk k' (by simp)
    have hrest : ∀ k'' ∈ rest, k'' ≠ k := fun k'' h => hk k'' (by simp [h])
    simp only [applyBoolFields]
    rcases applyBoolField_cases f k' c with ⟨b, _, happ⟩ | ⟨_, happ⟩ | happ <;>
      rw [happ]
    · rw [ih hrest]
      rw [fkey_get_set]
      simp [Ne.symm hne]
    · exact ih hrest c
    · rfl

lemma applyBoolFields_get_of_findnone (f : Json) (l : List FKey) (k : FKey)
    (hfind : f.find k.name = none) (c : FieldConfig) :
    FKey.get k (exceptOut (applyBoolFields f l c)) = FKey.get k c := by
  induction l generalizing c with
  | nil => rfl
  | cons k' rest ih =>
    simp only [applyBoolFields]
    rcases applyBoolField_cases f k' c with ⟨b, hfk, happ⟩ | ⟨_, happ⟩ | happ <;>
      rw [happ]
    · have hne : k' ≠ k := by
        intro he
        rw [he, hfind] at hfk
        exact Option.noConfusion hfk
      rw [ih]
      rw [fkey_get_set]
      simp [Ne.symm hne]
    · exact ih c
    · rfl


lemma applyBoolFields_ok_of_wt (f : Json) (hwt : fieldsWellTyped f)
    (l : List FKey) (c : FieldConfig) :
    ∃ c₂, applyBoolFields f l c = .ok c₂ := by
  induction l generalizing c with
  | nil => exact ⟨c, rfl⟩
  | cons k' rest ih =>
    simp only [applyBoolFields]
    rcases applyBoolField_cases f k' c with ⟨b, _, happ⟩ | ⟨_, happ⟩ | happ
    · rw [happ]; exact ih _
    · rw [happ]; exact ih _
    · exfalso
      rcases hwt k' with hnone | ⟨b, hbool⟩
      · rcases applyBoolField_cases f k' c with ⟨b, hfk, h2⟩ | ⟨_, h2⟩ | h2
        · rw [hnone] at hfk; exact Option.noConfusion hfk
        · rw [h2] at happ; exact Except.noConfusion happ
        · unfold applyBoolField at h2
          rw [hnone] at h2
          exact Except.noConfusion h2
      · unfold applyBoolField at happ
        rw [hbool] at happ
        exact Except.noConfusion happ

lemma applyBoolFields_get_of_present (f : Json) (hwt : fieldsWellTyped f)
    (l : List FKey) (hnd : l.Nodup) (k : FKey) (hm : k ∈ l) (b : Bool)
    (hfind : f.find k.name = some (.bool b)) (c : FieldConfig) :
    FKey.get k (exceptOut (applyBoolFields f l c)) = b := by
  induction l generalizing c with
  | nil => simp at hm
  | cons k' rest ih =>
    simp only [applyBoolFields]
    by_cases hkk : k' = k
    · subst hkk
      have happ : applyBoolField f k' c = .ok (k'.set c b) := by
        unfold applyBoolField
        rw [hfind]
      rw [happ]
      have hnotin : ∀ k'' ∈ rest, k'' ≠ k' := by
        intro k'' hk'' he
        subst he
        exact (List.nodup_cons.mp hnd).1 hk''
      rw [applyBoolFields_get_preserved f rest k' hnotin]
      rw [fkey_get_set]
      simp
    · have hm' : k ∈ rest := by
        rcases List.mem_cons.mp hm with he | h
        · exact absurd he.symm hkk
        · exact h
      rcases applyBoolField_cases f k' c with ⟨b', _, happ⟩ | ⟨_, happ⟩ | happ
      · rw [happ]
        exact ih (List.nodup_cons.mp hnd).2 hm' _
      · rw [happ]
        exact ih (List.nodup_cons.mp hnd).2 hm' _
      · exfalso
        rcases hwt k' with hnone | ⟨b', hbool⟩
        · unfold applyBoolField at happ
          rw [hnone] at happ
          exact Except.noConfusion happ
        · unfold applyBoolField at happ
          rw [hbool] at happ
          exact Except.noConfusion happ

lemma applyBoolFields_congr (f₁ f₂ : Json) (l : List FKey)
    (hagree : ∀ k ∈ l, f₁.find k.name = f₂.find k.name) (c : FieldConfig) :
    applyBoolFields f₁ l c = applyBoolFields f₂ l c := by
  induction l generalizing c with
  | nil => rfl
  | cons k' rest ih =>
    have hstep : applyBoolField f₁ k' c = applyBoolField f₂ k' c := by
      unfold applyBoolField
      rw [hagree k' (by simp)]
    simp only [applyBoolFields, hstep]
    rcases applyBoolField_cases f₂ k' c with ⟨b, _, happ⟩ | ⟨_, happ⟩ | happ <;>
      rw [happ]
    · exact ih (fun k hk => hagree k (by simp [hk])) _
    · exact ih (fun k hk => hagree k (by simp [hk])) _

lemma applyBoolFields_id_of_none (f : Json) (l : List FKey)
    (hnone : ∀ k ∈ l, f.find k.name = none) (c : FieldConfig) :
    applyBoolFields f l c = .ok c := by
  induction l generalizing c with
  | nil => rfl
  | cons k' rest ih =>
    have happ : applyBoolField f k' c = .ok c := by
      unfold applyBoolField
      rw [hnone k' (by simp)]
    simp only [applyBoolFields, happ]
    exact ih (fun k hk => hnone k (by simp [hk])) c

lemma fieldKeys_nodup : fieldKeys.Nodup := by decide


lemma ParseScanConfig_fields_absent (j : Json) (k : FKey)
    (h : (j.find "fields").bind (fun f => f.find k.name) = none) :
    FKey.get k (ParseScanConfig (some j)).fields = FKey.get k ({} : FieldConfig) := by
  simp only [ParseScanConfig]
  rcases hf : j.find "fields" with _ | f
  · simp only [hf]
    rcases hp : j.find "treeRulesPrompt" with _ | v
    · rfl
    · cases v <;> rfl
  · rw [hf] at h
    simp only [Option.bind] at h
    have hget := applyBoolFields_get_of_findnone f fieldKeys k h {}
    simp only [hf]
    rcases hab : applyBoolFields f fieldKeys ({} : FieldConfig) with fc | fc <;>
        rw [hab] at hget <;> simp only [exceptOut] at hget <;> simp only [hab]
    · simp only [exceptOut]
      exact hget
    · rcases hp : j.find "treeRulesPrompt" with _ | v
      · simp only [hp, exceptOut]
        exact hget
      · cases v <;> simp only [hp, exceptOut] <;> exact hget

lemma ParseScanConfig_prompt_absent (j : Json)
    (h : j.find "treeRulesPrompt" = none) :
    (ParseScanConfig (some j)).treeRulesPrompt = "" := by
  simp only [ParseScanConfig]
  rcases hf : j.find "fields" with _ | f
  · simp [hf, h, exceptOut]
  · simp only [hf]
    rcases hab : applyBoolFields f fieldKeys ({} : FieldConfig) with fc | fc <;>
      simp [hab, h, exceptOut]

lemma ParseScanConfig_fields_present (j : Json) (f : Json) (k : FKey) (b : Bool)
    (hf : j.find "fields" = some f) (hwt : fieldsWellTyped f)
    (hfind : f.find k.name = some (.bool b)) :
    FKey.get k (ParseScanConfig (some j)).fields = b := by
  simp only [ParseScanConfig, hf]
  have hget := applyBoolFields_get_of_present f hwt fieldKeys fieldKeys_nodup k
    (fkey_mem_fieldKeys k) b hfind {}
  rcases hab : applyBoolFields f fieldKeys ({} : FieldConfig) with fc | fc <;>
      rw [hab] at hget <;> simp only [exceptOut] at hget <;> simp only [hab]
  · simp only [exceptOut]
    exact hget
  · rcases hp : j.find "treeRulesPrompt" with _ | v
    · simp only [hp, exceptOut]
      exact hget
    · cases v <;> simp only [hp, exceptOut] <;> exact hget

lemma ParseScanConfig_prompt_present (j : Json) (s : String)
    (hp : j.find "treeRulesPrompt" = some (.str s))
    (hwt : j.find "fields" = none ∨ ∃ f, j.find "fields" = some f ∧ fieldsWellTyped f) :
    (ParseScanConfig (some j)).treeRulesPrompt = s := by
  simp only [ParseScanConfig]
  rcases hwt with hf | ⟨f, hf, hwt⟩
  · simp [hf, hp, exceptOut]
  · obtain ⟨c₂, hok⟩ := applyBoolFields_ok_of_wt f hwt fieldKeys {}
    simp [hf, hok, hp, exceptOut]

lemma ParseScanConfig_congr (j₁ j₂ : Json)
    (hfields : ∀ k : FKey, (j₁.find "fields").bind (fun f => f.find k.name)
      = (j₂.find "fields").bind (fun f => f.find k.name))
    (hprompt : j₁.find "treeRulesPrompt" = j₂.find "treeRulesPrompt") :
    ParseScanConfig (some j₁) = ParseScanConfig (some j₂) := by
  simp only [ParseScanConfig]
  rw [hprompt]
  rcases hf₁ : j₁.find "fields" with _ | f₁
  · rcases hf₂ : j₂.find "fields" with _ | f₂
    · simp only [hf₁, hf₂]
    · have hn : ∀ k ∈ fieldKeys, f₂.find k.name = none := by
        intro k _
        have h := hfields k
        rw [hf₁, hf₂] at h
        simpa [Option.bind] using h.symm
      simp only [hf₁, hf₂, applyBoolFields_id_of_none f₂ fieldKeys hn]
  · rcases hf₂ : j₂.find "fields" with _ | f₂
    · have hn : ∀ k ∈ fieldKeys, f₁.find k.name = none := by
        intro k _
        have h := hfields k
        rw [hf₁, hf₂] at h
        simpa [Option.bind] using h
      simp only [hf₁, hf₂, applyBoolFields_id_of_none f₁ fieldKeys hn]
    · have hagree : ∀ k ∈ fieldKeys, f₁.find k.name = f₂.find k.name := by
        intro k _
        have h := hfields k
        rw [hf₁, hf₂] at h
        simpa [Option.bind] using h
      simp only [hf₁, hf₂, applyBoolFields_congr f₁ f₂ fieldKeys hagree]


lemma fullScanStep_records (dh : Option Env) (fields : FieldConfig)
    (st : ScanState) (osp : Option SpellItem) :
    (fullScanStep dh fields st osp).records
      = st.records ++ (fullScanKeep dh fields osp).toList := by
  rcases osp with _ | s
  · simp [fullScanStep, fullScanKeep]
  · rcases he : s.editorId with _ | e
    · simp only [fullScanStep, fullScanKeep, fullScanEligible, fullScanFilterOut,
        Option.bind, Option.some_bind, he]
      split_ifs <;> simp_all
    · simp only [fullScanStep, fullScanKeep, fullScanEligible, fullScanFilterOut,
        Option.bind, Option.some_bind, he, Option.getD_some]
      by_cases h1 : s.spellType = SpellType.spell
      swap
      · simp [h1]
      by_cases h2 : s.name.isEmpty = true
      · simp [h1, h2]
      by_cases h3 : e = []
      · simp [h1, h2, h3]
      by_cases h4 : nameLooks0x s.name = true
      · simp [h1, h2, h3, h4]
      by_cases h5 : allHexName s.name ∧ s.name.length ≥ 6
      · simp [h1, h2, h3, h4, h5, h5.1, h5.2]
      by_cases h6 : isNonPlayerSpell e = true
      · simp [h1, h2, h3, h4, h5, h6]
      by_cases h7 : (firstEffectSchool s).1 = ActorValue.none
      · simp [h1, h2, h3, h4, h5, h6, h7]
      by_cases h8 : 1000 < s.magickaCost
      · simp [h1, h2, h3, h4, h5, h6, h7, h8]
      by_cases h9 : hasValidEffect s = true
      · have h5b : allHexName s.name = false ∨ s.name.length < 6 := by
          rcases Bool.eq_false_or_eq_true (allHexName s.name) with hb | hb
          · right
            by_contra hlen
            exact h5 ⟨hb, by omega⟩
          · exact Or.inl hb
        simp [h1, h2, h3, h4, h5, h5b, h6, h7, h8, h9]
      · simp [h1, h2, h3, h4, h5, h6, h7, h8, h9]

lemma fullScan_foldl_records (dh : Option Env) (fields : FieldConfig)
    (l : List (Option SpellItem)) (st : ScanState) :
    (l.foldl (fullScanStep dh fields) st).records
      = st.records ++ l.filterMap (fullScanKeep dh fields) := by
  induction l generalizing st with
  | nil => simp
  | cons os rest ih =>
    simp only [List.foldl, List.filterMap_cons]
    rw [ih, fullScanStep_records]
    rcases h : fullScanKeep dh fields os with _ | r <;>
      simp [h, List.append_assoc]

lemma renderFormId_inj (a b : Nat) (ha : a < 2 ^ 32) (hb : b < 2 ^ 32)
    (h : renderFormId a = renderFormId b) : a = b := by
  have h1 := parse_render a ha
  have h2 := parse_render b hb
  rw [h, h2] at h1
  exact (Option.some.inj h1).symm

lemma projectRecord_formId (dh : Option Env) (fields : FieldConfig) (s : SpellItem) :
    (projectRecord dh fields s).formId = renderFormId s.formId := rfl

lemma tomeRecord_formId (dh : Option Env) (fields : FieldConfig) (book : Book)
    (spell : SpellItem) :
    (tomeRecord dh fields book spell).formId = renderFormId spell.formId := rfl

lemma tomeScanStep_inv (dh : Option Env) (fields : FieldConfig)
    (st : TomeScanState) (ob : Option Book)
    (hwf : ∀ b, ob = some b → ∀ s, b.spell = some s → s.formId < 2 ^ 32)
    (hinv : tomeInv st) : tomeInv (tomeScanStep dh fields st ob) := by
  rcases ob with _ | book
  · exact hinv
  have hwf' := hwf book rfl
  simp only [tomeScanStep]
  by_cases ht : book.teachesSpell = true
  swap
  · rw [if_pos (by simp [ht])]
    exact hinv
  rw [if_neg (by simp [ht])]
  rcases hsp : book.spell with _ | spell
  · exact hinv
  show tomeInv (tomeScanSpell dh fields book spell st)
  have hlt : spell.formId < 2 ^ 32 := hwf' spell hsp
  unfold tomeScanSpell
  split_ifs with hdup hname hschool
  · exact hinv
  · refine ⟨hinv.1, ?_⟩
    intro r hr
    obtain ⟨fid, hmem, hlt', heq⟩ := hinv.2 r hr
    exact ⟨fid, by simp [hmem], hlt', heq⟩
  · refine ⟨hinv.1, ?_⟩
    intro r hr
    obtain ⟨fid, hmem, hlt', heq⟩ := hinv.2 r hr
    exact ⟨fid, by simp [hmem], hlt', heq⟩
  · constructor
    · rw [List.map_append, List.nodup_append]
      refine ⟨hinv.1, by simp, ?_⟩
      intro x hx hx2
      simp only [List.map_cons, List.map_nil, List.mem_singleton] at hx2
      obtain ⟨r, hr, hrx⟩ := List.mem_map.mp hx
      obtain ⟨fid, hmem, hlt', heq⟩ := hinv.2 r hr
      rw [← hrx, heq] at hx2
      have hfe : fid = spell.formId :=
        renderFormId_inj fid spell.formId hlt' hlt (by
          simpa [tomeRecord_formId] using hx2)
      rw [hfe] at hmem
      exact hdup hmem
    · intro r hr
      rcases List.mem_append.mp hr with h | h
      · obtain ⟨fid, hmem, hlt', heq⟩ := hinv.2 r h
        exact ⟨fid, by simp [hmem], hlt', heq⟩
      · simp only [List.mem_singleton] at h
        subst h
        exact ⟨spell.formId, by simp, hlt, rfl⟩

lemma tomeInit_inv : tomeInv {} := ⟨List.nodup_nil, by intro r hr; simp at hr⟩

lemma tomeScan_foldl_inv (dh : Option Env) (fields : FieldConfig)
    (l : List (Option Book)) (st : TomeScanState)
    (hwf : ∀ ob ∈ l, ∀ b, ob = some b → ∀ s, b.spell = some s → s.formId < 2 ^ 32)
    (hinv : tomeInv st) : tomeInv (l.foldl (tomeScanStep dh fields) st) := by
  induction l generalizing st with
  | nil => exact hinv
  | cons ob rest ih =>
    exact ih _ (fun ob₂ h => hwf ob₂ (by simp [h]))
      (tomeScanStep_inv dh fields st ob (fun b h => hwf (some b) (by simp [h]) b rfl) hinv)

lemma tomeScan_scenario (env : Env) (cfg : ScanConfig) (b1 b2 b3 : Book)
    (s s' : SpellItem)
    (hbooks : env.books = [some b1, some b2, some b3])
    (ht1 : b1.teachesSpell = true) (hs1 : b1.spell = some s)
    (ht2 : b2.teachesSpell = true) (hs2 : b2.spell = some s)
    (ht3 : b3.teachesSpell = true) (hs3 : b3.spell = some s')
    (hne : s.formId ≠ s'.formId)
    (hn1 : s.name.isEmpty = false) (hn2 : s'.name.isEmpty = false)
    (hsc1 : (firstEffectSchool s).1 ≠ ActorValue.none)
    (hsc2 : (firstEffectSchool s').1 ≠ ActorValue.none) :
    ∃ st, ScanSpellTomes (some env) cfg = some st ∧
      st.records = [tomeRecord (some env) cfg.fields b1 s,
                    tomeRecord (some env) cfg.fields b3 s']
      ∧ st.skippedDuplicates = 1 := by
  simp only [ScanSpellTomes, hbooks, List.foldl]
  refine ⟨_, rfl, ?_, ?_⟩ <;>
    simp [tomeScanStep, tomeScanSpell, ht1, ht2, ht3, hs1, hs2, hs3,
      hn1, hn2, hsc1, hsc2, hne, Ne.symm hne]

lemma filterOut_of_name0x (s : SpellItem) (h : s.name = bytes "0x000A26FF") :
    fullScanFilterOut s = true := by
  have hl : nameLooks0x (bytes "0x000A26FF") = true := by decide
  simp [fullScanFilterOut, h, hl]

lemma filterOut_of_cost (s : SpellItem) (h : s.magickaCost = 1500) :
    fullScanFilterOut s = true := by
  have hc : decide ((1000 : ℚ) < 1500) = true := by decide
  simp [fullScanFilterOut, h, hc]

lemma filterOut_of_noEffects (s : SpellItem) (h : s.effects = []) :
    fullScanFilterOut s = true := by
  simp [fullScanFilterOut, firstEffectSchool, h]

lemma sanitize_ne_nil2 (l : List Nat) (h : l ≠ []) : SanitizeToUTF8 l ≠ [] := by
  cases l with
  | nil => exact absurd rfl h
  | cons c rest => exact sanitize_ne_nil c rest

lemma detailLoop_desc_stable (l : List (Option EffectEntry))
    (acc : List EffectRecord × List (List Nat) × List Nat)
    (hne : acc.2.2 ≠ []) : (l.foldl detailStep acc).2.2 = acc.2.2 := by
  induction l generalizing acc with
  | nil => rfl
  | cons oe rest ih =>
    have hstep : (detailStep acc oe).2.2 = acc.2.2 := by
      rcases oe with _ | e
      · rfl
      rcases hb : e.baseEffect with _ | b
      · simp [detailStep, hb]
      · simp only [detailStep, hb]
        have : acc.2.2.isEmpty = false := by
          cases hx : acc.2.2
          · exact absurd hx hne
          · rfl
        simp [this]
    rw [List.foldl_cons]
    rw [ih _ (by rw [hstep]; exact hne)]
    exact hstep

lemma detailLoop_desc (l : List (Option EffectEntry))
    (accE : List EffectRecord) (accN : List (List Nat)) :
    (l.foldl detailStep (accE, accN, [])).2.2 =
      match l.findSome? effectRawDesc with
      | some d => SanitizeToUTF8 d
      | Option.none => [] := by
  induction l generalizing accE accN with
  | nil => rfl
  | cons oe rest ih =>
    rcases oe with _ | e
    · rw [List.foldl_cons]
      show (rest.foldl detailStep (accE, accN, [])).2.2 = _
      rw [ih accE accN]
      rfl
    rcases hb : e.baseEffect with _ | b
    · rw [List.foldl_cons]
      have hred : detailStep (accE, accN, []) (some e) = (accE, accN, []) := by
        simp [detailStep, hb]
      rw [hred, ih accE accN]
      simp [List.findSome?_cons, effectRawDesc, hb]
    by_cases hd : b.description.isEmpty = true
    · rw [List.foldl_cons]
      have hdesc : b.description = [] := by simpa using hd
      have hred : (detailStep (accE, accN, []) (some e)).2.2 = [] := by
        simp [detailStep, hb, hd]
      rcases hsplit : detailStep (accE, accN, []) (some e) with ⟨e1, n1, d1⟩
      rw [hsplit] at hred
      simp only at hred
      subst hred
      rw [ih e1 n1]
      simp [List.findSome?_cons, effectRawDesc, hb, hdesc]
    · rw [List.foldl_cons]
      have hne2 : b.description ≠ [] := by simpa using hd
      have hred : (detailStep (accE, accN, []) (some e)).2.2
          = SanitizeToUTF8 b.description := by
        simp [detailStep, hb, hd]
      have hsan : SanitizeToUTF8 b.description ≠ [] := sanitize_ne_nil2 _ hne2
      rw [detailLoop_desc_stable rest _ (by rw [hred]; exact hsan)]
      rw [hred]
      simp [List.findSome?_cons, effectRawDesc, hb, hd, hne2]

lemma parseFormIdStr_none_of_bad (s : List Nat) (c : Nat)
    (hc : c ∈ (stripLeading0x s).take 8) (hbad : hexDigitVal c = none) :
    parseFormIdStr s = none := by
  unfold parseFormIdStr
  show parseHexClean (if (stripLeading0x s).length > 8
    then (stripLeading0x s).take 8 else stripLeading0x s) = none
  by_cases hlen : (stripLeading0x s).length > 8
  · rw [if_pos hlen]
    unfold parseHexClean
    have hall : ((stripLeading0x s).take 8).all (fun c => (hexDigitVal c).isSome)
        = false := by
      rw [List.all_eq_false]
      exact ⟨c, hc, by simp [hbad]⟩
    rw [hall]
    simp
  · rw [if_neg hlen]
    have hc2 : c ∈ stripLeading0x s := by
      have := List.take_subset 8 (stripLeading0x s)
      exact this hc
    unfold parseHexClean
    have hall : (stripLeading0x s).all (fun c => (hexDigitVal c).isSome) = false := by
      rw [List.all_eq_false]
      exact ⟨c, hc2, by simp [hbad]⟩
    rw [hall]
    simp


-- =============================================================================
-- Detail-lookup reduction lemmas
-- =============================================================================

lemma getSpellInfo_eq (env : Env) (input : List Nat) (fid : Nat) (spell : SpellItem)
    (hp : parseFormIdStr input = some fid)
    (hl : env.lookupById fid = some (Form.spell spell)) :
    GetSpellInfoByFormId env input = some (buildSpellInfo env input fid spell) := by
  unfold GetSpellInfoByFormId
  simp [hp, hl]

lemma getSpellInfo_none_parse (env : Env) (input : List Nat)
    (hp : parseFormIdStr input = Option.none) :
    GetSpellInfoByFormId env input = Option.none := by
  unfold GetSpellInfoByFormId
  simp [hp]

lemma getSpellInfo_none_lookup (env : Env) (input : List Nat) (fid : Nat)
    (hp : parseFormIdStr input = some fid)
    (hl : env.lookupById fid = Option.none) :
    GetSpellInfoByFormId env input = Option.none := by
  unfold GetSpellInfoByFormId
  simp [hp, hl]

lemma getSpellInfo_none_other (env : Env) (input : List Nat) (fid : Nat)
    (hp : parseFormIdStr input = some fid)
    (hl : env.lookupById fid = some Form.other) :
    GetSpellInfoByFormId env input = Option.none := by
  unfold GetSpellInfoByFormId
  simp [hp, hl]

lemma getSpellInfo_some_inv (env : Env) (input : List Nat) (doc : SpellInfoDoc)
    (h : GetSpellInfoByFormId env input = some doc) :
    ∃ fid spell, parseFormIdStr input = some fid
      ∧ env.lookupById fid = some (Form.spell spell)
      ∧ doc = buildSpellInfo env input fid spell := by
  rcases hp : parseFormIdStr input with _ | fid
  · rw [getSpellInfo_none_parse env input hp] at h
    exact absurd h (by simp)
  rcases hl : env.lookupById fid with _ | form
  · rw [getSpellInfo_none_lookup env input fid hp hl] at h
    exact absurd h (by simp)
  cases form with
  | other =>
    rw [getSpellInfo_none_other env input fid hp hl] at h
    exact absurd h (by simp)
  | spell spell =>
    rw [getSpellInfo_eq env input fid spell hp hl] at h
    exact ⟨fid, spell, rfl, hl, (Option.some.inj h).symm⟩

-- =============================================================================
-- Claim theorems
-- =============================================================================

/-- C1: in a tome scan no two records share the same taught-spell formId
(dedup by the taught spell's formId, first tome in catalog order winning),
and in the three-tome scenario with one duplicated taught spell the
document holds exactly the records of the first and third tome and reports
one skipped duplicate. -/
theorem claim_C1_tome_dedup :
    (∀ env cfg st, ScanSpellTomes (some env) cfg = some st →
       (∀ b, some b ∈ env.books → ∀ s, b.spell = some s → s.formId < 2 ^ 32) →
       (st.records.map ScanRecord.formId).Nodup)
    ∧ (∀ env cfg b1 b2 b3 s s',
        env.books = [some b1, some b2, some b3] →
        b1.teachesSpell = true → b1.spell = some s →
        b2.teachesSpell = true → b2.spell = some s →
        b3.teachesSpell = true → b3.spell = some s' →
        s.formId ≠ s'.formId →
        s.name.isEmpty = false → s'.name.isEmpty = false →
        (firstEffectSchool s).1 ≠ ActorValue.none →
        (firstEffectSchool s').1 ≠ ActorValue.none →
        ∃ st, ScanSpellTomes (some env) cfg = some st ∧
          st.records = [tomeRecord (some env) cfg.fields b1 s,
                        tomeRecord (some env) cfg.fields b3 s'] ∧
          st.skippedDuplicates = 1) := by
  constructor
  · intro env cfg st hscan hwf
    have h2 : env.books.foldl (tomeScanStep (some env) cfg.fields) {} = st :=
      Option.some.inj hscan
    rw [← h2]
    exact (tomeScan_foldl_inv (some env) cfg.fields env.books {}
      (fun ob hob b hbeq s hseq => hwf b (hbeq ▸ hob) s hseq) tomeInit_inv).1
  · intro env cfg b1 b2 b3 s s' hbooks ht1 hs1 ht2 hs2 ht3 hs3 hne hn1 hn2 hsc1 hsc2
    exact tomeScan_scenario env cfg b1 b2 b3 s s' hbooks ht1 hs1 ht2 hs2 ht3 hs3
      hne hn1 hn2 hsc1 hsc2

/-- C1 witness: the scenario and the dedup invariant instantiated on a
concrete catalog where two of three tomes teach the same spell. -/
theorem claim_C1_witness :
    ∃ st, ScanSpellTomes (some c1Env) {} = some st ∧
      st.records.length = 2 ∧ st.skippedDuplicates = 1 ∧
      (st.records.map ScanRecord.formId).Nodup := by
  obtain ⟨st, hscan, hrec, hdup⟩ :=
    claim_C1_tome_dedup.2 c1Env {} wBook1 wBook2 wBook3 wSpellA wSpellB
      rfl rfl rfl rfl rfl rfl rfl (by decide) (by decide) (by decide)
      (by decide) (by decide)
  refine ⟨st, hscan, by rw [hrec]; rfl, hdup, ?_⟩
  apply claim_C1_tome_dedup.1 c1Env {} st hscan
  intro b hb s hs
  simp only [c1Env, List.mem_cons, List.not_mem_nil, or_false] at hb
  rcases hb with hb | hb | hb <;>
  · cases Option.some.inj hb
    cases Option.some.inj hs
    decide

/-- C2: the full-scan record list consists of exactly one record per spell
that passes the eligibility checks (spell kind, non-empty name and editor
id) and none of the five filter conditions; entities named "0x000A26FF",
entities with computed cost 1500, and entities with no effects are all
filtered. -/
theorem claim_C2_full_scan_filter :
    (∀ env fields,
       (ScanSpellsToJson (some env) fields).records
         = env.spells.filterMap (fullScanKeep (some env) fields))
    ∧ (∀ s : SpellItem, s.name = bytes "0x000A26FF" → fullScanFilterOut s = true)
    ∧ (∀ s : SpellItem, s.magickaCost = 1500 → fullScanFilterOut s = true)
    ∧ (∀ s : SpellItem, s.effects = [] → fullScanFilterOut s = true) := by
  refine ⟨?_, filterOut_of_name0x, filterOut_of_cost, filterOut_of_noEffects⟩
  intro env fields
  show (env.spells.foldl (fullScanStep (some env) fields) {}).records = _
  rw [fullScan_foldl_records]
  rfl

/-- C2 witness: the three filter conditions discharged on concrete spells,
and the resulting exclusion from a concrete scan. -/
theorem claim_C2_witness :
    fullScanFilterOut c2Spell0x = true
    ∧ fullScanFilterOut c2SpellCost = true
    ∧ fullScanFilterOut c2SpellNoFx = true :=
  ⟨claim_C2_full_scan_filter.2.1 c2Spell0x rfl,
   claim_C2_full_scan_filter.2.2.1 c2SpellCost rfl,
   claim_C2_full_scan_filter.2.2.2 c2SpellNoFx rfl⟩

/-- C3 counterexample: the claim says every identifier containing a non-hex
character after prefix-stripping yields the empty result, but the code
truncates to 8 characters *before* validating, so "12345678Z" (whose
stripped form contains the non-hex byte 'Z' = 90) resolves successfully
when an entity exists at 0x12345678. -/
theorem claim_C3_counterexample :
    (90 ∈ stripLeading0x (bytes "12345678Z") ∧ hexDigitVal 90 = Option.none)
    ∧ GetSpellInfoByFormId c3Env (bytes "12345678Z") ≠ Option.none := by
  refine ⟨⟨by decide, by decide⟩, ?_⟩
  decide

/-- C3 (amended): the lookup returns the empty result for identifiers with a
non-hex character among the first 8 characters after prefix-stripping, for
identifiers at which no entity exists and for identifiers resolving to a
non-spell form; stripped identifiers longer than 8 characters are parsed
from their first 8 characters only; "zz1234" yields the empty result. -/
theorem claim_C3_parser_errors :
    (∀ env s c, c ∈ (stripLeading0x s).take 8 → hexDigitVal c = Option.none →
       GetSpellInfoByFormId env s = Option.none)
    ∧ (∀ env s fid, parseFormIdStr s = some fid →
       env.lookupById fid = Option.none →
       GetSpellInfoByFormId env s = Option.none)
    ∧ (∀ env s fid, parseFormIdStr s = some fid →
       env.lookupById fid = some Form.other →
       GetSpellInfoByFormId env s = Option.none)
    ∧ (∀ s, 8 < (stripLeading0x s).length →
       parseFormIdStr s = parseHexClean ((stripLeading0x s).take 8))
    ∧ (∀ env, GetSpellInfoByFormId env (bytes "zz1234") = Option.none) := by
  refine ⟨?_, getSpellInfo_none_lookup, getSpellInfo_none_other, ?_, ?_⟩
  · intro env s c hc hbad
    exact getSpellInfo_none_parse env s (parseFormIdStr_none_of_bad s c hc hbad)
  · intro s hlen
    unfold parseFormIdStr
    show parseHexClean (if (stripLeading0x s).length > 8
      then (stripLeading0x s).take 8 else stripLeading0x s) = _
    rw [if_pos hlen]
  · intro env
    exact getSpellInfo_none_parse env _
      (parseFormIdStr_none_of_bad _ 122 (by decide) (by decide))

/-- C3 witness: the invalid-character and truncation cases discharged on
concrete identifiers. -/
theorem claim_C3_witness :
    GetSpellInfoByFormId c3Env (bytes "zz1234") = Option.none
    ∧ parseFormIdStr (bytes "123456789") = parseHexClean (bytes "12345678")
    ∧ GetSpellInfoByFormId c3Env (bytes "xyz") = Option.none := by
  refine ⟨claim_C3_parser_errors.1 c3Env (bytes "zz1234") 122 (by decide) (by decide),
    ?_, ?_⟩
  · have h := claim_C3_parser_errors.2.2.2.1 (bytes "123456789") (by decide)
    rw [h]
    have h2 : (stripLeading0x (bytes "123456789")).take 8 = bytes "12345678" := by
      decide
    rw [h2]
  · exact claim_C3_parser_errors.1 c3Env (bytes "xyz") 120 (by decide) (by decide)

/-- C4: config parsing is total with the documented defaults: a missing or
malformed document yields the defaults, absent keys keep their defaults,
present well-typed keys take effect, the keywords-only document leaves all
other flags at their defaults, and documents that agree on the recognized
keys parse identically (unknown keys are ignored). -/
theorem claim_C4_config_parsing :
    ParseScanConfig Option.none
      = { fields := { editorId := true, magickaCost := true, minimumSkill := false,
                      castingType := false, delivery := false, chargeTime := false,
                      plugin := false, effects := false, effectNames := false,
                      keywords := false },
          treeRulesPrompt := "" }
    ∧ (∀ j k, ((Json.find j "fields").bind (fun f => f.find k.name)) = Option.none →
        FKey.get k (ParseScanConfig (some j)).fields = FKey.get k {})
    ∧ (∀ j, Json.find j "treeRulesPrompt" = Option.none →
        (ParseScanConfig (some j)).treeRulesPrompt = "")
    ∧ (∀ j f k b, Json.find j "fields" = some f → fieldsWellTyped f →
        f.find k.name = some (Json.bool b) →
        FKey.get k (ParseScanConfig (some j)).fields = b)
    ∧ (∀ j s, Json.find j "treeRulesPrompt" = some (Json.str s) →
        (Json.find j "fields" = Option.none ∨
          ∃ f, Json.find j "fields" = some f ∧ fieldsWellTyped f) →
        (ParseScanConfig (some j)).treeRulesPrompt = s)
    ∧ ParseScanConfig
        (some (Json.obj [("fields", Json.obj [("keywords", Json.bool true)])]))
        = { fields := { keywords := true }, treeRulesPrompt := "" }
    ∧ (∀ j₁ j₂,
        (∀ k : FKey, (Json.find j₁ "fields").bind (fun f => f.find k.name)
          = (Json.find j₂ "fields").bind (fun f => f.find k.name)) →
        Json.find j₁ "treeRulesPrompt" = Json.find j₂ "treeRulesPrompt" →
        ParseScanConfig (some j₁) = ParseScanConfig (some j₂)) :=
  ⟨rfl, ParseScanConfig_fields_absent, ParseScanConfig_prompt_absent,
   ParseScanConfig_fields_present, ParseScanConfig_prompt_present,
   by rfl, ParseScanConfig_congr⟩

/-- C4 witness: default retention on the empty object and the keywords-only
document discharged concretely. -/
theorem claim_C4_witness :
    FKey.get FKey.editorId (ParseScanConfig (some (Json.obj []))).fields = true
    ∧ FKey.get FKey.keywords (ParseScanConfig
        (some (Json.obj [("fields", Json.obj [("keywords", Json.bool true)])]))).fields
        = true := by
  constructor
  · exact claim_C4_config_parsing.2.1 (Json.obj []) FKey.editorId rfl
  · refine claim_C4_config_parsing.2.2.2.1
      (Json.obj [("fields", Json.obj [("keywords", Json.bool true)])])
      (Json.obj [("keywords", Json.bool true)]) FKey.keywords true rfl ?_ rfl
    intro k
    cases k <;> simp [Json.find, findKey, FKey.name]

/-- C5: for a resolved spell, when the effectiveness subsystem classifies it
as early-learned with ratio r the detail document carries isWeakened=true,
effectiveness = trunc(r*100) and one scaled-effect entry per effect with
scaledMagnitude = trunc(magnitude*r); otherwise isWeakened=false,
effectiveness=100 and no scaledEffects block. -/
theorem claim_C5_weakening :
    (∀ env input fid spell h doc,
       parseFormIdStr input = some fid →
       env.lookupById fid = some (Form.spell spell) →
       env.hook = some h →
       GetSpellInfoByFormId env input = some doc →
       (h.isEarlyLearned fid = true →
          doc.isWeakened = true
          ∧ doc.effectiveness = cppTruncInt (h.calcEffectiveness fid * 100)
          ∧ doc.scaledEffects
              = some (buildScaledEffects spell (h.calcEffectiveness fid)))
       ∧ (h.isEarlyLearned fid = false →
          doc.isWeakened = false ∧ doc.effectiveness = 100
          ∧ doc.scaledEffects = Option.none))
    ∧ (∀ spell r e b, some e ∈ spell.effects → e.baseEffect = some b →
        ({ name := SanitizeToUTF8 b.name, originalMagnitude := e.magnitude,
           scaledMagnitude := cppTruncInt (e.magnitude * r),
           duration := e.duration } : ScaledEffectRecord)
          ∈ buildScaledEffects spell r) := by
  constructor
  · intro env input fid spell h doc hp hl hh hdoc
    rw [getSpellInfo_eq env input fid spell hp hl] at hdoc
    have hdoc2 := Option.some.inj hdoc
    subst hdoc2
    constructor
    · intro hE
      refine ⟨?_, ?_, ?_⟩ <;> simp [buildSpellInfo, hh, hE]
    · intro hE
      refine ⟨?_, ?_, ?_⟩ <;> simp [buildSpellInfo, hh, hE]
  · intro spell r e b hmem hb
    exact List.mem_filterMap.mpr ⟨some e, hmem, by simp [hb]⟩

/-- C5 witness: ratio 1/2 on a single effect of magnitude 40 gives
effectiveness 50 and scaled magnitude 20. -/
theorem claim_C5_witness :
    ∃ doc, GetSpellInfoByFormId c5Env (bytes "1234") = some doc
      ∧ doc.isWeakened = true ∧ doc.effectiveness = 50
      ∧ doc.scaledEffects
          = some [{ name := bytes "Spark", originalMagnitude := 40, scaledMagnitude := 20, duration := 3 }] := by
  refine ⟨_, rfl, ?_⟩
  have h := (claim_C5_weakening.1 c5Env (bytes "1234") 4660 c5Spell c5Hook _
    (by decide) rfl rfl rfl).1 (by decide)
  refine ⟨h.1, ?_, ?_⟩
  · rw [h.2.1]
    show cppTruncInt ((1 / 2 : ℚ) * 100) = 50
    norm_num [cppTruncInt]
  · rw [h.2.2]
    show some (buildScaledEffects c5Spell (1 / 2 : ℚ)) = _
    have hname : SanitizeToUTF8 (bytes "Spark") = bytes "Spark" := by decide
    simp [buildScaledEffects, c5Spell, c5Base, hname]
    norm_num [cppTruncInt]

/-- C6: the scan-record rendering of any 32-bit formId (0x12FCD renders as
"0x00012FCD") round-trips through the detail-lookup identifier parser back
to the same value, with or without the 0x/0X prefix and case-insensitively. -/
theorem claim_C6_formid_roundtrip :
    renderFormId 77773 = bytes "0x00012FCD"
    ∧ (∀ v : Nat, v < 2 ^ 32 →
        parseFormIdStr (renderFormId v) = some v
        ∧ parseFormIdStr (hex8 v) = some v
        ∧ parseFormIdStr ((bytes "0X") ++ hex8 v) = some v
        ∧ parseFormIdStr (toLowerBytes (renderFormId v)) = some v
        ∧ parseFormIdStr (toLowerBytes (hex8 v)) = some v) := by
  refine ⟨by decide, ?_⟩
  intro v hv
  refine ⟨parse_render v hv, parse_bare v hv, ?_, parse_lower_render v hv,
    parse_lower_bare v hv⟩
  rw [b0X]
  exact parse_render0X v hv

/-- C6 witness: the round trip discharged at the concrete value 0x12FCD. -/
theorem claim_C6_witness :
    parseFormIdStr (renderFormId 77773) = some 77773
    ∧ parseFormIdStr (toLowerBytes (renderFormId 77773)) = some 77773 :=
  ⟨(claim_C6_formid_roundtrip.2 77773 (by norm_num)).1,
   (claim_C6_formid_roundtrip.2 77773 (by norm_num)).2.2.2.1⟩

/-- C7: the classifier lower-cases its input (so it is case-insensitive) and
holds exactly when one of the spec's ordered checks matches; the five
concrete examples of the spec hold. -/
theorem claim_C7_classifier :
    (∀ s, isNonPlayerSpell (toLowerBytes s) = isNonPlayerSpell s)
    ∧ (∀ s, isNonPlayerSpell s = nonPlayerDisjunction s)
    ∧ isNonPlayerSpell (bytes "TrapFireRune") = true
    ∧ isNonPlayerSpell (bytes "FlamesSpell") = false
    ∧ isNonPlayerSpell (bytes "CRWolfBite") = true
    ∧ isNonPlayerSpell (bytes "MG05Teleport") = true
    ∧ isNonPlayerSpell (bytes "TRAP01") = isNonPlayerSpell (bytes "trap01") :=
  ⟨nps_lower, nps_disj, by decide, by decide, by decide, by decide, by decide⟩

/-- C8: the sanitizer never outputs a byte in [0x80,0x9F], passes ASCII and
[0xA0,0xFF] bytes through unchanged, maps the control range through the
fixed table (with '?' as default), and is idempotent. -/
theorem claim_C8_sanitizer :
    (∀ x b, b ∈ SanitizeToUTF8 x → ¬(128 ≤ b ∧ b ≤ 159))
    ∧ (∀ x, (∀ b ∈ x, b < 128) → SanitizeToUTF8 x = x)
    ∧ (∀ c, c < 128 ∨ 160 ≤ c → sanitizeByte c = [c])
    ∧ (sanitizeByte 145 = [39] ∧ sanitizeByte 146 = [39]
       ∧ sanitizeByte 147 = [34] ∧ sanitizeByte 148 = [34]
       ∧ sanitizeByte 150 = [45] ∧ sanitizeByte 151 = [45]
       ∧ sanitizeByte 133 = bytes "..." ∧ sanitizeByte 153 = bytes "(TM)")
    ∧ (∀ c, 128 ≤ c → c ≤ 159 →
        c ∉ ([145, 146, 147, 148, 150, 151, 133, 153] : List Nat) →
        sanitizeByte c = [63])
    ∧ (∀ x, SanitizeToUTF8 (SanitizeToUTF8 x) = SanitizeToUTF8 x) := by
  refine ⟨?_, fun x hx => sanitize_eq_self_of x (fun b hb => Or.inl (hx b hb)),
    sanitizeByte_eq_self, by decide, ?_, sanitize_idem⟩
  · intro x b hb
    have := mem_sanitize x b hb
    omega
  · intro c h1 h2 h3
    interval_cases c <;> simp_all <;> decide

/-- C8 witness: the ASCII, pass-through and default-substitution cases
discharged on concrete bytes. -/
theorem claim_C8_witness :
    SanitizeToUTF8 (bytes "Hello") = bytes "Hello"
    ∧ sanitizeByte 200 = [200]
    ∧ sanitizeByte 130 = [63] :=
  ⟨claim_C8_sanitizer.2.1 (bytes "Hello") (by decide),
   claim_C8_sanitizer.2.2.1 200 (Or.inr (by norm_num)),
   claim_C8_sanitizer.2.2.2.2.1 130 (by norm_num) (by norm_num) (by decide)⟩

/-- C9: every successful detail lookup echoes the caller's identifier string
verbatim in the formId field, unnormalized (the scan rendering of the same
value is a different string). -/
theorem claim_C9_formid_echo :
    (∀ env input doc, GetSpellInfoByFormId env input = some doc →
       doc.formId = input)
    ∧ bytes "12fcd" ≠ renderFormId 77773 := by
  constructor
  · intro env input doc h
    obtain ⟨fid, spell, _, _, hdoc⟩ := getSpellInfo_some_inv env input doc h
    rw [hdoc]
    rfl
  · decide

/-- C9 witness: input "12fcd" is echoed verbatim for the entity that scan
documents render as "0x00012FCD". -/
theorem claim_C9_witness :
    ∃ doc, GetSpellInfoByFormId c9Env (bytes "12fcd") = some doc
      ∧ doc.formId = bytes "12fcd" ∧ doc.formId ≠ renderFormId 77773 :=
  ⟨_, rfl, claim_C9_formid_echo.1 c9Env (bytes "12fcd") _ rfl,
   by rw [claim_C9_formid_echo.1 c9Env (bytes "12fcd") _ rfl]
      exact claim_C9_formid_echo.2⟩

/-- C10: the detail document's description is the sanitized description of
the first effect (in list order) whose raw description is non-empty, and is
empty when no effect has one. -/
theorem claim_C10_description :
    ∀ env input doc, GetSpellInfoByFormId env input = some doc →
      ∃ fid spell, parseFormIdStr input = some fid
        ∧ env.lookupById fid = some (Form.spell spell)
        ∧ doc.description = (match spell.effects.findSome? effectRawDesc with
            | some d => SanitizeToUTF8 d
            | Option.none => []) := by
  intro env input doc h
  obtain ⟨fid, spell, hp, hl, hdoc⟩ := getSpellInfo_some_inv env input doc h
  refine ⟨fid, spell, hp, hl, ?_⟩
  rw [hdoc]
  show (detailEffectsLoop spell.effects).2.2 = _
  exact detailLoop_desc spell.effects [] []

/-- C10 witness: on a spell whose first effect has no description and whose
second effect's description is "Burns the target.", the document description
is the sanitized second description. -/
theorem claim_C10_witness :
    ∃ doc, GetSpellInfoByFormId c10Env (bytes "1235") = some doc
      ∧ doc.description = bytes "Burns the target." := by
  refine ⟨_, rfl, ?_⟩
  obtain ⟨fid, spell, hp, hl, hdesc⟩ :=
    claim_C10_description c10Env (bytes "1235") _ rfl
  rw [hdesc]
  have hfid : fid = 4661 := by
    have := hp
    rw [show parseFormIdStr (bytes "1235") = some 4661 from by decide] at this
    exact (Option.some.inj this).symm
  subst hfid
  have hspell : spell = c10Spell := by
    have := hl
    rw [show c10Env.lookupById 4661 = some (Form.spell c10Spell) from rfl] at this
    exact (Form.spell.inj (Option.some.inj this)).symm
  subst hspell
  decide

end HeartOfMagic
